import Mathlib

/-!
Verification development for the reovim TUI core: a shallow embedding of the
component-tree arena, layout engine, compositor, cursor navigation and content
measurement from `src/tui/tree.rs`, `src/tui/terminal_buffer.rs` and
`src/tui/mod.rs`, together with proofs about the behavioural claims.

Machine integers: the Rust code uses `u16`/`u8` fields and `usize` ids.  The
embedding uses `Nat`, writing wrap-around (`% 65536`) or saturating
(`min _ 65535`) arithmetic explicitly at every operation where the source's
`u16` arithmetic can overflow or saturate (release-mode Rust semantics).
Screen coordinates produced by addition of already-bounded quantities are kept
as plain `Nat` additions.
-/

namespace Reovim

/-- Largest `u16` value. -/
def U16_MAX : Nat := 65535

/-- Modulus of `u16` arithmetic. -/
def U16_MOD : Nat := 65536

/-- `u16::saturating_add`. -/
def satAdd16 (a b : Nat) : Nat := min (a + b) U16_MAX

/-- Wrap-around `u16` increment (`x += 1` on a `u16` in release mode). -/
def wrapSucc16 (a : Nat) : Nat := (a + 1) % U16_MOD

/-- `LayoutMode` from `src/tui/mod.rs`. -/
inductive LayoutMode where
  | verticalSplit
  | horizontalSplit
  deriving DecidableEq, Repr

/-- `CursorStyle` from `src/tui/mod.rs`. -/
inductive CursorStyle where
  | block
  | line
  | underline
  deriving DecidableEq, Repr

instance : Inhabited CursorStyle := ⟨CursorStyle.block⟩

/-- `Overflow` from `src/tui/mod.rs`. -/
inductive Overflow where
  | wrap
  | hide
  | scroll
  deriving DecidableEq, Repr

/-- `Measurement` from `src/tui/mod.rs` (`Percent` stores a `u8`, modelled as
a `Nat`; `calculate_size` clamps it to `100` before use). -/
inductive Measurement where
  | cell (cells : Nat)
  | percent (p : Nat)
  | content
  | fill
  deriving DecidableEq, Repr

/-- `Rect` from `src/tui/mod.rs`.  All four fields are `u16` in the source. -/
structure Rect where
  x : Nat
  y : Nat
  width : Nat
  height : Nat
  deriving DecidableEq, Repr

instance : Inhabited Rect := ⟨⟨0, 0, 0, 0⟩⟩

/-- `Formatting` from `src/tui/mod.rs`. -/
structure Formatting where
  preferred_x : Measurement
  preferred_y : Measurement
  preferred_width : Measurement
  preferred_height : Measurement
  overflow_x : Overflow
  overflow_y : Overflow
  request_focus : Bool
  layout_mode : LayoutMode
  focusable : Bool
  deriving DecidableEq, Repr

/-- `Formatting::default()` from `src/tui/mod.rs`. -/
def Formatting.default : Formatting where
  preferred_x := .cell 0
  preferred_y := .cell 0
  preferred_width := .percent 100
  preferred_height := .percent 100
  overflow_x := .hide
  overflow_y := .hide
  request_focus := false
  layout_mode := .verticalSplit
  focusable := true

instance : Inhabited Formatting := ⟨Formatting.default⟩

/-- `TerminalCommand` from `src/tui/terminal_buffer.rs`.  Colours are opaque
to every algorithm in scope and are modelled as bare naturals. -/
inductive TerminalCommand where
  | print (ch : Char)
  | newline
  | setForeground (color : Nat)
  | setBackground (color : Nat)
  | clearCmd
  deriving DecidableEq, Repr

/-- The state a component can observe on the virtual buffer it renders into:
its declared width/height, scroll offset, component-relative cursor position
and focus flag (`TerminalBuffer`'s accessors in `src/tui/terminal_buffer.rs`).
A fresh `TerminalBuffer::new(w, h)` presents `⟨w, h, 0, 0, 0, 0, false⟩`. -/
structure RenderCtx where
  width : Nat
  height : Nat
  scrollX : Nat
  scrollY : Nat
  cursorCol : Nat
  cursorRow : Nat
  focused : Bool

/-- Fresh-buffer observation context for `TerminalBuffer::new(w, h)`. -/
def RenderCtx.new (w h : Nat) : RenderCtx := ⟨w, h, 0, 0, 0, 0, false⟩

/-- One fold step of `TerminalBuffer::measure_content` over the recorded
command list.  State `(width, height, current_line_width)`; all three are
`u16` in the source, so the two increments wrap modulo `2 ^ 16`. -/
def measureStep (w : Nat) (s : Nat × Nat × Nat) (cmd : TerminalCommand) :
    Nat × Nat × Nat :=
  match cmd with
  | .print _ =>
    let current := wrapSucc16 s.2.2
    if w < current then
      (max s.1 1, wrapSucc16 s.2.1, 1)
    else
      (max s.1 current, s.2.1, current)
  | .newline => (s.1, wrapSucc16 s.2.1, 0)
  | _ => s

/-- `TerminalBuffer::measure_content` from `src/tui/terminal_buffer.rs`,
as a function of the buffer's declared width and recorded command list. -/
def measure_content (w : Nat) (cmds : List TerminalCommand) : Nat × Nat :=
  let s := cmds.foldl (measureStep w) (0, 1, 0)
  if cmds.isEmpty then (0, 0) else (s.1, s.2.1)

/-- `ComponentTree::calculate_size` from `src/tui/tree.rs`.  `Cell` is a
`usize` clamped by `min` to the `u16` available space; `Percent` clamps the
`u8` to 100 and then multiplies two `u16`s, which wraps modulo `2 ^ 16`. -/
def calculate_size (measurement : Measurement) (available : Nat) : Nat :=
  match measurement with
  | .cell cells => min cells available
  | .percent p => ((available * min p 100) % U16_MOD) / 100
  | .content => available
  | .fill => available

/-- `ComponentNode` from `src/tui/tree.rs`.  A `Frame` renders nothing and is
skipped by the dirty/initialization bookkeeping; every other variant (Status,
Text, Debug, boxed `Component`) is a content-bearing component, modelled by
what it observably does through the tree: the command list its pure `render`
records into a buffer, and its `default_formatting`. -/
inductive ComponentNode where
  | frame (layout_mode : LayoutMode)
  | comp (render : RenderCtx → List TerminalCommand) (default_formatting : Formatting)

/-- `ComponentNode::render` (`src/tui/tree.rs`): Frames render nothing. -/
def ComponentNode.renderCmds : ComponentNode → RenderCtx → List TerminalCommand
  | .frame _, _ => []
  | .comp render _, ctx => render ctx

/-- The formatting `ComponentTree::add_child` picks: `Formatting::default()`
for a Frame, the component's `default_formatting()` otherwise. -/
def ComponentNode.defaultFormatting : ComponentNode → Formatting
  | .frame _ => Formatting.default
  | .comp _ fmt => fmt

/-- `matches!(child, ComponentNode::Frame(_))`. -/
def ComponentNode.isFrame : ComponentNode → Bool
  | .frame _ => true
  | .comp _ _ => false

/-- `ComponentTree` from `src/tui/tree.rs`: the arena's parallel tables plus
the focus/dirty bookkeeping. -/
structure ComponentTree where
  components : List ComponentNode
  parent : List (Option Nat)
  children : List (List Nat)
  rects : List Rect
  formatting : List Formatting
  focus : Nat
  root : Nat
  dirty : List Nat
  pending_initialization : List Nat
  cursor_pos : Option (Nat × Nat)
  scroll_x : List Nat
  scroll_y : List Nat
  cursor_col : List Nat
  cursor_row : List Nat
  cursor_initialized : List Bool
  cursor_style : List CursorStyle
  focus_path : List Nat

namespace ComponentTree

/-- `ComponentTree::new` from `src/tui/tree.rs`. -/
def new (root : ComponentNode) : ComponentTree where
  components := [root]
  focus := 0
  parent := [none]
  children := [[]]
  rects := [⟨0, 0, 0, 0⟩]
  formatting := [Formatting.default]
  root := 0
  dirty := [0]
  pending_initialization := [0]
  cursor_pos := none
  scroll_x := [0]
  scroll_y := [0]
  cursor_col := [0]
  cursor_row := [0]
  cursor_initialized := [false]
  cursor_style := [CursorStyle.block]
  focus_path := [0]

/-- `self.formatting.get(id).copied().unwrap_or_default()`. -/
def fmtOf (t : ComponentTree) (id : Nat) : Formatting :=
  (t.formatting[id]?).getD Formatting.default

/-- `self.rects.get(id).copied().unwrap_or_default()`. -/
def rectOf (t : ComponentTree) (id : Nat) : Rect :=
  (t.rects[id]?).getD default

/-- `self.cursor_col.get(id).copied().unwrap_or(0)`. -/
def cursorColOf (t : ComponentTree) (id : Nat) : Nat :=
  (t.cursor_col[id]?).getD 0

/-- `self.cursor_row.get(id).copied().unwrap_or(0)`. -/
def cursorRowOf (t : ComponentTree) (id : Nat) : Nat :=
  (t.cursor_row[id]?).getD 0

/-- `self.scroll_x.get(id).copied().unwrap_or(0)`. -/
def scrollXOf (t : ComponentTree) (id : Nat) : Nat :=
  (t.scroll_x[id]?).getD 0

/-- `self.scroll_y.get(id).copied().unwrap_or(0)`. -/
def scrollYOf (t : ComponentTree) (id : Nat) : Nat :=
  (t.scroll_y[id]?).getD 0

/-- `ComponentTree::children(id)`: `Some` of the child list iff `id` indexes
the `children` table. -/
def childrenOf (t : ComponentTree) (id : Nat) : Option (List Nat) :=
  t.children[id]?

/-- `ComponentTree::parent(id).and_then(|p| p)`: the parent id, if any. -/
def parentOf (t : ComponentTree) (id : Nat) : Option Nat :=
  (t.parent[id]?).join

/-- `ComponentTree::mark_dirty` from `src/tui/tree.rs`. -/
def mark_dirty (t : ComponentTree) (id : Nat) : ComponentTree :=
  if id ∈ t.dirty then t else { t with dirty := t.dirty ++ [id] }

/-- `ComponentTree::clear_dirty`. -/
def clear_dirty (t : ComponentTree) : ComponentTree := { t with dirty := [] }

/-- `ComponentTree::is_dirty`. -/
def is_dirty (t : ComponentTree) (id : Nat) : Bool := id ∈ t.dirty

/-- `ComponentTree::add_child_with_formatting` from `src/tui/tree.rs`
(lines 699–753).  Rust mutates `self` and returns `Result<ComponentId>`;
the embedding returns the updated tree together with the result, the input
tree being returned untouched on the error path. -/
def add_child_with_formatting (t : ComponentTree) (parent_id : Nat)
    (child : ComponentNode) (formatting : Formatting) :
    ComponentTree × Except String Nat :=
  if t.components.length ≤ parent_id then
    (t, .error "Parent component not found")
  else
    let child_id := t.components.length
    let is_frame := child.isFrame
    let t := { t with
      components := t.components ++ [child]
      parent := t.parent ++ [some parent_id]
      rects := t.rects ++ [Rect.mk 0 0 0 0]
      formatting := t.formatting ++ [formatting]
      scroll_x := t.scroll_x ++ [0]
      scroll_y := t.scroll_y ++ [0]
      children := t.children ++ [[]]
      cursor_col := t.cursor_col ++ [0]
      cursor_row := t.cursor_row ++ [0]
      cursor_initialized := t.cursor_initialized ++ [false]
      cursor_style := t.cursor_style ++ [CursorStyle.block] }
    let t := if is_frame then t else t.mark_dirty child_id
    let t := if formatting.request_focus then { t with focus := child_id } else t
    let t := { t with
      children := t.children.set parent_id
        ((t.children[parent_id]?).getD [] ++ [child_id]) }
    let t := if is_frame then t
      else { t with pending_initialization := t.pending_initialization ++ [child_id] }
    (t, .ok child_id)

/-- `ComponentTree::add_child`: defaults the formatting from the child. -/
def add_child (t : ComponentTree) (parent_id : Nat) (child : ComponentNode) :
    ComponentTree × Except String Nat :=
  t.add_child_with_formatting parent_id child child.defaultFormatting

/-- `ComponentTree::build_focus_path` from `src/tui/tree.rs` (lines
1001–1014).  The source pushes ancestors onto `[target]` and reverses; the
accumulator below prepends instead, producing the same root-to-target list.
The `while let` walk over possibly-cyclic `parent` links is cut off by
`fuel`; any fuel at least the length of the parent chain is enough. -/
def buildFocusPathAux (t : ComponentTree) : Nat → Nat → List Nat → List Nat
  | 0, _, acc => acc
  | fuel + 1, current, acc =>
    match t.parentOf current with
    | some p => buildFocusPathAux t fuel p (p :: acc)
    | none => acc

/-- `build_focus_path` with explicit fuel for the parent walk. -/
def build_focus_path (fuel : Nat) (t : ComponentTree) (target : Nat) : List Nat :=
  buildFocusPathAux t fuel target [target]

/-- `ComponentTree::update_focus_path` (lines 1961–1969): rebuild
`focus_path` for the current focus by walking up the parent links. -/
def update_focus_path (fuel : Nat) (t : ComponentTree) : ComponentTree :=
  { t with focus_path := build_focus_path fuel t t.focus }

end ComponentTree

/-- `ComponentTree::measure_component` from `src/tui/tree.rs` (lines
833–881): containers combine their children's measures along the layout
axis with `u16` saturating addition; leaves render into a fresh
`max_width × max_height` buffer and measure it.  The recursion over the
(possibly cyclic) `children` table is cut off by `fuel`. -/
def measure_component : Nat → ComponentTree → Nat → Nat → Nat → Nat × Nat
  | 0 => fun _ _ _ _ => (0, 0)
  | fuel + 1 => fun t id max_width max_height =>
    let leaf : Nat × Nat :=
      match t.components[id]? with
      | some component =>
        measure_content max_width (component.renderCmds (RenderCtx.new max_width max_height))
      | none => (0, 0)
    match t.childrenOf id with
    | some child_ids =>
      if child_ids.isEmpty then leaf
      else
        match (t.fmtOf id).layout_mode with
        | .verticalSplit =>
          let s := child_ids.foldl (fun acc c =>
            let m := measure_component fuel t c max_width max_height
            (max acc.1 m.1, satAdd16 acc.2 m.2)) (0, 0)
          s
        | .horizontalSplit =>
          let s := child_ids.foldl (fun acc c =>
            let m := measure_component fuel t c max_width max_height
            (satAdd16 acc.1 m.1, max acc.2 m.2)) (0, 0)
          s
    | none => leaf

/-- `ComponentTree::measure_logical_bounds` (lines 885–931): identical to
`measure_component` except that leaves are probed in a `u16::MAX`-square
buffer, so no width-driven wrapping occurs. -/
def measure_logical_bounds : Nat → ComponentTree → Nat → Nat × Nat
  | 0 => fun _ _ => (0, 0)
  | fuel + 1 => fun t id =>
    let leaf : Nat × Nat :=
      match t.components[id]? with
      | some component =>
        measure_content U16_MAX (component.renderCmds (RenderCtx.new U16_MAX U16_MAX))
      | none => (0, 0)
    match t.childrenOf id with
    | some child_ids =>
      if child_ids.isEmpty then leaf
      else
        match (t.fmtOf id).layout_mode with
        | .verticalSplit =>
          let s := child_ids.foldl (fun acc c =>
            let m := measure_logical_bounds fuel t c
            (max acc.1 m.1, satAdd16 acc.2 m.2)) (0, 0)
          s
        | .horizontalSplit =>
          let s := child_ids.foldl (fun acc c =>
            let m := measure_logical_bounds fuel t c
            (satAdd16 acc.1 m.1, max acc.2 m.2)) (0, 0)
          s
    | none => leaf

/-- `ComponentCommands::try_enter_component` (lines 404–426): focusable, or
has some descendant that is. -/
def try_enter_component : Nat → ComponentTree → Nat → Bool
  | 0 => fun _ _ => false
  | fuel + 1 => fun t component_id =>
    if (t.fmtOf component_id).focusable then true
    else
      match t.childrenOf component_id with
      | some children => children.any (fun c => try_enter_component fuel t c)
      | none => false

/-- `ComponentCommands::find_focusable_descendant` (lines 431–465).  The
focusable and non-focusable branches of the source run the same first-child
search; both are kept to mirror its shape. -/
def find_focusable_descendant : Nat → ComponentTree → Nat → Nat
  | 0 => fun _ id => id
  | fuel + 1 => fun t component_id =>
    if (t.fmtOf component_id).focusable then
      match t.childrenOf component_id with
      | some children =>
        match children.find? (fun c => try_enter_component (fuel + 1) t c) with
        | some child => find_focusable_descendant fuel t child
        | none => component_id
      | none => component_id
    else
      match t.childrenOf component_id with
      | some children =>
        match children.find? (fun c => try_enter_component (fuel + 1) t c) with
        | some child => find_focusable_descendant fuel t child
        | none => component_id
      | none => component_id

/-- `ComponentCommands::find_focusable_descendant_last` (lines 469–503):
as above but searching the children in reverse. -/
def find_focusable_descendant_last : Nat → ComponentTree → Nat → Nat
  | 0 => fun _ id => id
  | fuel + 1 => fun t component_id =>
    if (t.fmtOf component_id).focusable then
      match t.childrenOf component_id with
      | some children =>
        match children.reverse.find? (fun c => try_enter_component (fuel + 1) t c) with
        | some child => find_focusable_descendant_last fuel t child
        | none => component_id
      | none => component_id
    else
      match t.childrenOf component_id with
      | some children =>
        match children.reverse.find? (fun c => try_enter_component (fuel + 1) t c) with
        | some child => find_focusable_descendant_last fuel t child
        | none => component_id
      | none => component_id

/-- `ComponentTree::find_last_focusable_descendant` (lines 1972–1991):
stop at non-focusable nodes, otherwise follow last children down. -/
def find_last_focusable_descendant : Nat → ComponentTree → Nat → Nat
  | 0 => fun _ id => id
  | fuel + 1 => fun t id =>
    if !(t.fmtOf id).focusable then id
    else
      match t.childrenOf id with
      | some children =>
        match children.getLast? with
        | some last => find_last_focusable_descendant fuel t last
        | none => id
      | none => id

/-- `ComponentCommands::set_focus_with_descent` (lines 302–311). -/
def set_focus_with_descent (fuel : Nat) (t : ComponentTree) (component_id : Nat) :
    ComponentTree :=
  let focus_id := find_focusable_descendant fuel t component_id
  let t := { t with focus := focus_id }
  let t := { t with focus_path := ComponentTree.build_focus_path fuel t focus_id }
  t.mark_dirty focus_id

/-- `ComponentCommands::set_focus_with_descent_to_last` (lines 314–323). -/
def set_focus_with_descent_to_last (fuel : Nat) (t : ComponentTree) (component_id : Nat) :
    ComponentTree :=
  let focus_id := find_focusable_descendant_last fuel t component_id
  let t := { t with focus := focus_id }
  let t := { t with focus_path := ComponentTree.build_focus_path fuel t focus_id }
  t.mark_dirty focus_id

/-- `ComponentCommands::navigate_siblings` (lines 327–401).  `siblings[next_pos]`
in the source is an in-range index (`next_pos ≤ siblings.len() - 1`);
the embedding reads it with a default. -/
def navigate_siblings (fuel : Nat) (t : ComponentTree) (parent_id : Nat)
    (col_delta row_delta : Int) : ComponentTree :=
  match t.childrenOf parent_id with
  | none => t
  | some siblings =>
    if siblings.isEmpty then t
    else
      let parent_col := t.cursorColOf parent_id
      let parent_row := t.cursorRowOf parent_id
      let current_pos := min parent_row (siblings.length - 1)
      let next_pos : Option Nat :=
        if row_delta > 0 || col_delta > 0 then some (min (current_pos + 1) (siblings.length - 1))
        else if row_delta < 0 || col_delta < 0 then some (current_pos - 1)
        else none
      match next_pos with
      | none => t
      | some next_pos =>
        if next_pos = current_pos then t
        else
          let next_id := siblings.getD next_pos 0
          let t := { t with cursor_row := t.cursor_row.set parent_id (next_pos % U16_MOD) }
          if try_enter_component fuel t next_id then
            let is_moving_up := row_delta < 0 || col_delta < 0
            let t := if is_moving_up then set_focus_with_descent_to_last fuel t next_id
              else set_focus_with_descent fuel t next_id
            let focus_id := t.focus
            let lb := measure_logical_bounds fuel t focus_id
            let max_col := lb.1 - 1
            let max_row := lb.2 - 1
            let clamped_col := min parent_col max_col
            let target_row := if is_moving_up then max_row else 0
            let t := { t with cursor_col := t.cursor_col.set focus_id clamped_col }
            let t := { t with cursor_row := t.cursor_row.set focus_id target_row }
            t.mark_dirty parent_id
          else t

/-- The tentative cursor move of `ComponentCommands::move_cursor`: the `i32`
delta is truncated to `u16` (`as u16`, i.e. reduced modulo `2 ^ 16`) and then
applied with `u16` saturating arithmetic. -/
def satAddDelta (current : Nat) (delta : Int) : Nat :=
  if delta > 0 then min (current + delta.toNat % U16_MOD) U16_MAX
  else if delta < 0 then current - (-delta).toNat % U16_MOD
  else current

/-- The boundary backtracking loop of `ComponentCommands::move_cursor`
(lines 257–286): walk up the parent chain looking for an ancestor whose
layout axis matches the movement; `fallback` is the final clamp-in-place
state reached when no ancestor matches. -/
def move_cursor_backtrack : Nat → ComponentTree → Nat → Nat → Int → Int →
    ComponentTree → ComponentTree
  | 0 => fun _ _ _ _ _ fallback => fallback
  | fuel + 1 => fun t backtrack_id current_col col_delta row_delta fallback =>
    match t.parentOf backtrack_id with
    | some parent =>
      let parent_layout := (t.fmtOf parent).layout_mode
      let should_navigate_siblings :=
        (parent_layout = .verticalSplit && !(col_delta ≠ 0) && (row_delta ≠ 0)) ||
        (parent_layout = .horizontalSplit && (col_delta ≠ 0) && !(row_delta ≠ 0))
      if should_navigate_siblings then
        let t := { t with cursor_col := t.cursor_col.set parent current_col }
        navigate_siblings (fuel + 1) t parent col_delta row_delta
      else
        move_cursor_backtrack fuel t parent current_col col_delta row_delta fallback
    | none => fallback

/-- `ComponentCommands::move_cursor` (lines 180–299).  `self_id` plays the
role of `self.self_id`; the focused leaf is the last entry of the focus
path when the path is non-empty. -/
def move_cursor (fuel : Nat) (t : ComponentTree) (self_id : Nat)
    (col_delta row_delta : Int) : ComponentTree :=
  let current_id := (t.focus_path.getLast?).getD self_id
  let formatting := t.fmtOf current_id
  let current_col := t.cursorColOf current_id
  let current_row := t.cursorRowOf current_id
  let lb := measure_logical_bounds fuel t current_id
  let min_col : Nat := 0
  let max_col := lb.1 - 1
  let min_row : Nat := 0
  let max_row := if formatting.overflow_x = .wrap then 0 else lb.2 - 1
  let new_col := satAddDelta current_col col_delta
  let new_row := satAddDelta current_row row_delta
  let at_boundary :=
    (row_delta < 0 && new_row = current_row) ||
    (row_delta > 0 && new_row = current_row) ||
    (col_delta < 0 && new_col = current_col) ||
    (col_delta > 0 && new_col = current_col)
  if !at_boundary && min_col ≤ new_col && new_col ≤ max_col &&
      min_row ≤ new_row && new_row ≤ max_row then
    let t := { t with cursor_col := t.cursor_col.set current_id new_col }
    let t := { t with cursor_row := t.cursor_row.set current_id new_row }
    t.mark_dirty current_id
  else
    let clamped_col := min (max new_col min_col) max_col
    let clamped_row := min (max new_row min_row) max_row
    let fallback :=
      let t := { t with cursor_col := t.cursor_col.set current_id clamped_col }
      let t := { t with cursor_row := t.cursor_row.set current_id clamped_row }
      t.mark_dirty current_id
    move_cursor_backtrack fuel t current_id current_col col_delta row_delta fallback

/-- First pass of `ComponentTree::layout_children_horizontal` (lines
1119–1144): per-child widths for non-`Fill` children (`0` placeholder for
`Fill`), the `u16`-saturating total of non-`Fill` widths, and the `Fill`
count.  `fuel` feeds the `Content` measurement. -/
def horizontal_pass1 (fuel : Nat) (t : ComponentTree) (aw ah : Nat) :
    List Nat → Nat → Nat → List Nat × Nat × Nat
  | [], used_width, fill_count => ([], used_width, fill_count)
  | c :: rest, used_width, fill_count =>
    match (t.fmtOf c).preferred_width with
    | .fill =>
      let r := horizontal_pass1 fuel t aw ah rest used_width (fill_count + 1)
      (0 :: r.1, r.2)
    | .content =>
      let measured_width := (measure_component fuel t c aw ah).1
      let r := horizontal_pass1 fuel t aw ah rest (satAdd16 used_width measured_width) fill_count
      (measured_width :: r.1, r.2)
    | m =>
      let w := calculate_size m aw
      let r := horizontal_pass1 fuel t aw ah rest (satAdd16 used_width w) fill_count
      (w :: r.1, r.2)

/-- Passes 1–2 of `layout_children_horizontal` (lines 1119–1166): the widths
the placement pass then assigns to the children's rects.  `fill_count as u16`
is a `usize → u16` truncation, hence the `% 2 ^ 16`. -/
def horizontal_widths (fuel : Nat) (t : ComponentTree) (child_ids : List Nat)
    (available_width available_height : Nat) : List Nat :=
  let p := horizontal_pass1 fuel t available_width available_height child_ids 0 0
  let widths := p.1
  let used_width := p.2.1
  let fill_count := p.2.2
  let remaining_width := available_width - used_width
  let fill_width := if 0 < fill_count then remaining_width / (fill_count % U16_MOD) else 0
  (child_ids.zip widths).map (fun cw =>
    if cw.2 = 0 && (t.fmtOf cw.1).preferred_width = .fill then fill_width else cw.2)

/-- First pass of `ComponentTree::layout_children_vertical` (lines
1229–1254), mirror image of `horizontal_pass1`. -/
def vertical_pass1 (fuel : Nat) (t : ComponentTree) (aw ah : Nat) :
    List Nat → Nat → Nat → List Nat × Nat × Nat
  | [], used_height, fill_count => ([], used_height, fill_count)
  | c :: rest, used_height, fill_count =>
    match (t.fmtOf c).preferred_height with
    | .fill =>
      let r := vertical_pass1 fuel t aw ah rest used_height (fill_count + 1)
      (0 :: r.1, r.2)
    | .content =>
      let measured_height := (measure_component fuel t c aw ah).2
      let r := vertical_pass1 fuel t aw ah rest (satAdd16 used_height measured_height) fill_count
      (measured_height :: r.1, r.2)
    | m =>
      let h := calculate_size m ah
      let r := vertical_pass1 fuel t aw ah rest (satAdd16 used_height h) fill_count
      (h :: r.1, r.2)

/-- Passes 1–2 of `layout_children_vertical` (lines 1229–1276). -/
def vertical_heights (fuel : Nat) (t : ComponentTree) (child_ids : List Nat)
    (available_width available_height : Nat) : List Nat :=
  let p := vertical_pass1 fuel t available_width available_height child_ids 0 0
  let heights := p.1
  let used_height := p.2.1
  let fill_count := p.2.2
  let remaining_height := available_height - used_height
  let fill_height := if 0 < fill_count then remaining_height / (fill_count % U16_MOD) else 0
  (child_ids.zip heights).map (fun ch =>
    if ch.2 = 0 && (t.fmtOf ch.1).preferred_height = .fill then fill_height else ch.2)

/-- Placement pass of `layout_children_horizontal` (lines 1168–1220),
walking the children with their precomputed widths; `recur` is the
recursive `layout_node` call on each placed child. -/
def horizontal_place (fuel : Nat) (recur : ComponentTree → Nat → Nat → Nat → ComponentTree) :
    ComponentTree → List (Nat × Nat) → Nat → Nat → Nat → Nat → Nat → ComponentTree
  | t, [], _, _, _, _, _ => t
  | t, cw :: rest, available_width, available_height, current_x, current_y, max_height_in_row =>
    let c := cw.1
    let component_width := cw.2
    let formatting := t.fmtOf c
    let component_height :=
      if formatting.preferred_height = .content then
        (measure_component fuel t c component_width available_height).2
      else calculate_size formatting.preferred_height available_height
    let fits_on_line := current_x + component_width ≤ available_width
    let moved : Nat × Nat × Nat :=
      if !fits_on_line && formatting.overflow_x = .wrap then
        (0, current_y + max_height_in_row, 1)
      else (current_x, current_y, max_height_in_row)
    let current_x := moved.1
    let current_y := moved.2.1
    let max_height_in_row := moved.2.2
    if available_height ≤ current_y then t
    else
      let t := { t with rects := t.rects.set c ⟨current_x, current_y, component_width, component_height⟩ }
      let next_x := current_x + component_width
      let next_max := max max_height_in_row component_height
      let t := recur t c component_width component_height
      horizontal_place fuel recur t rest available_width available_height next_x current_y next_max

/-- Placement pass of `layout_children_vertical` (lines 1278–1329). -/
def vertical_place (fuel : Nat) (recur : ComponentTree → Nat → Nat → Nat → ComponentTree) :
    ComponentTree → List (Nat × Nat) → Nat → Nat → Nat → Nat → Nat → ComponentTree
  | t, [], _, _, _, _, _ => t
  | t, ch :: rest, available_width, available_height, current_x, current_y, max_width_in_column =>
    let c := ch.1
    let component_height := ch.2
    let formatting := t.fmtOf c
    let component_width :=
      if formatting.preferred_width = .content then
        (measure_component fuel t c available_width available_height).1
      else calculate_size formatting.preferred_width available_width
    let fits_in_column := current_y + component_height ≤ available_height
    let moved : Nat × Nat × Nat :=
      if !fits_in_column && formatting.overflow_y = .wrap then
        (current_x + max_width_in_column, 0, 1)
      else (current_x, current_y, max_width_in_column)
    let current_x := moved.1
    let current_y := moved.2.1
    let max_width_in_column := moved.2.2
    if available_width ≤ current_x then t
    else
      let t := { t with rects := t.rects.set c ⟨current_x, current_y, component_width, component_height⟩ }
      let next_y := current_y + component_height
      let next_max := max max_width_in_column component_width
      let t := recur t c component_width component_height
      vertical_place fuel recur t rest available_width available_height current_x next_y next_max

/-- `ComponentTree::layout_node` together with `layout_children` and the two
per-axis layout functions (lines 1059–1330), with fuel bounding the tree
recursion. -/
def layout_node : Nat → ComponentTree → Nat → Nat → Nat → ComponentTree
  | 0 => fun t _ _ _ => t
  | fuel + 1 => fun t id available_width available_height =>
    let formatting := t.fmtOf id
    let component_width := calculate_size formatting.preferred_width available_width
    let component_height := calculate_size formatting.preferred_height available_height
    let t :=
      if id = t.root then
        { t with rects := t.rects.set id ⟨0, 0, component_width, component_height⟩ }
      else t
    match t.childrenOf id with
    | some child_ids =>
      if child_ids.isEmpty then t
      else
        match (t.fmtOf id).layout_mode with
        | .horizontalSplit =>
          let widths := horizontal_widths (fuel + 1) t child_ids component_width component_height
          horizontal_place (fuel + 1) (layout_node fuel) t (child_ids.zip widths)
            component_width component_height 0 0 1
        | .verticalSplit =>
          let heights := vertical_heights (fuel + 1) t child_ids component_width component_height
          vertical_place (fuel + 1) (layout_node fuel) t (child_ids.zip heights)
            component_width component_height 0 0 1
    | none => t

/-- `ComponentTree::layout` (lines 1047–1049). -/
def layout (fuel : Nat) (t : ComponentTree) (width height : Nat) : ComponentTree :=
  layout_node fuel t t.root width height

/-- One `MoveTo(x, y)`-then-`Print(ch)` pair emitted by a compositor. -/
structure CellWrite where
  x : Nat
  y : Nat
  ch : Char
  deriving DecidableEq, Repr

/-- The space-padding `while x < width` loops of the compositors: blanks
columns `x0 ≤ col < w` of screen row `row` (empty when `x0 ≥ w`). -/
def padRow (start_x start_y x0 w row : Nat) : List CellWrite :=
  (List.range (w - x0)).map (fun i => ⟨start_x + (x0 + i), start_y + row, ' '⟩)

/-- The trailing clear loops of the compositors: blank the full rows
`from ≤ row < upto`. -/
def clearRows (start_x start_y w from_row upto : Nat) : List CellWrite :=
  (List.range (upto - from_row)).flatMap (fun j => padRow start_x start_y 0 w (from_row + j))

/-- The command loop of `ComponentTree::composite_buffer_hide`
(lines 1712–1776): state `(x, screen_y, skipped_newlines)`; returns the
writes together with the final `x` and `screen_y` for the epilogue.
Style markers become terminal style directives, not cell writes. -/
def composite_hide_go (w start_x start_y skip_lines max_lines : Nat) :
    List TerminalCommand → Nat → Nat → Nat → List CellWrite × Nat × Nat
  | [] => fun x screen_y _ => ([], x, screen_y)
  | cmd :: rest => fun x screen_y skipped_newlines =>
    if skipped_newlines < skip_lines then
      match cmd with
      | .newline =>
        composite_hide_go w start_x start_y skip_lines max_lines rest 0 screen_y
          (skipped_newlines + 1)
      | .print _ =>
        let x' := x + 1
        if w ≤ x' then
          composite_hide_go w start_x start_y skip_lines max_lines rest 0 screen_y
            (skipped_newlines + 1)
        else
          composite_hide_go w start_x start_y skip_lines max_lines rest x' screen_y
            skipped_newlines
      | _ =>
        composite_hide_go w start_x start_y skip_lines max_lines rest x screen_y
          skipped_newlines
    else if max_lines ≤ screen_y then ([], x, screen_y)
    else
      match cmd with
      | .print ch =>
        if w ≤ x then
          composite_hide_go w start_x start_y skip_lines max_lines rest x screen_y
            skipped_newlines
        else
          let r := composite_hide_go w start_x start_y skip_lines max_lines rest (x + 1)
            screen_y skipped_newlines
          (⟨start_x + x, start_y + screen_y, ch⟩ :: r.1, r.2)
      | .newline =>
        let pads := padRow start_x start_y x w screen_y
        let r := composite_hide_go w start_x start_y skip_lines max_lines rest 0
          (screen_y + 1) skipped_newlines
        (pads ++ r.1, r.2)
      | _ =>
        composite_hide_go w start_x start_y skip_lines max_lines rest x screen_y
          skipped_newlines

/-- `ComponentTree::composite_buffer_hide` (lines 1703–1799), as the list of
cell writes it performs: the command loop, then the conditional final-row
padding, then the blanking of the remaining budget rows. -/
def composite_buffer_hide (w : Nat) (cmds : List TerminalCommand)
    (start_x start_y skip_lines max_lines : Nat) : List CellWrite :=
  let r := composite_hide_go w start_x start_y skip_lines max_lines cmds 0 0 0
  let x := r.2.1
  let screen_y := r.2.2
  let tail_pad := if 0 < x || 0 < screen_y then padRow start_x start_y x w screen_y else []
  r.1 ++ tail_pad ++ clearRows start_x start_y w (screen_y + 1) max_lines

/-- The command loop of `ComponentTree::composite_buffer_wrap`
(lines 1810–1885).  On width overflow mid-row the source runs a
`while x < width` pad (vacuously empty, since `x ≥ width` there), wraps to
the next screen row, re-checks the budget, and prints the character there. -/
def composite_wrap_go (w start_x start_y skip_lines max_lines : Nat) :
    List TerminalCommand → Nat → Nat → Nat → List CellWrite × Nat × Nat
  | [] => fun x screen_y _ => ([], x, screen_y)
  | cmd :: rest => fun x screen_y skipped_newlines =>
    if skipped_newlines < skip_lines then
      match cmd with
      | .newline =>
        composite_wrap_go w start_x start_y skip_lines max_lines rest 0 screen_y
          (skipped_newlines + 1)
      | .print _ =>
        let x' := x + 1
        if w ≤ x' then
          composite_wrap_go w start_x start_y skip_lines max_lines rest 0 screen_y
            (skipped_newlines + 1)
        else
          composite_wrap_go w start_x start_y skip_lines max_lines rest x' screen_y
            skipped_newlines
      | _ =>
        composite_wrap_go w start_x start_y skip_lines max_lines rest x screen_y
          skipped_newlines
    else if max_lines ≤ screen_y then ([], x, screen_y)
    else
      match cmd with
      | .print ch =>
        if w ≤ x then
          let screen_y' := screen_y + 1
          if max_lines ≤ screen_y' then ([], 0, screen_y')
          else
            let r := composite_wrap_go w start_x start_y skip_lines max_lines rest 1
              screen_y' skipped_newlines
            (⟨start_x + 0, start_y + screen_y', ch⟩ :: r.1, r.2)
        else
          let r := composite_wrap_go w start_x start_y skip_lines max_lines rest (x + 1)
            screen_y skipped_newlines
          (⟨start_x + x, start_y + screen_y, ch⟩ :: r.1, r.2)
      | .newline =>
        let pads := padRow start_x start_y x w screen_y
        let r := composite_wrap_go w start_x start_y skip_lines max_lines rest 0
          (screen_y + 1) skipped_newlines
        (pads ++ r.1, r.2)
      | _ =>
        composite_wrap_go w start_x start_y skip_lines max_lines rest x screen_y
          skipped_newlines

/-- `ComponentTree::composite_buffer_wrap` (lines 1801–1906), as the list of
cell writes it performs: the command loop, then the unconditional final-row
padding, then the blanking of the remaining budget rows. -/
def composite_buffer_wrap (w : Nat) (cmds : List TerminalCommand)
    (start_x start_y skip_lines max_lines : Nat) : List CellWrite :=
  let r := composite_wrap_go w start_x start_y skip_lines max_lines cmds 0 0 0
  let x := r.2.1
  let screen_y := r.2.2
  r.1 ++ padRow start_x start_y x w screen_y ++
    clearRows start_x start_y w (screen_y + 1) max_lines

/-- Observable side effects of `ComponentTree::render_node`: a call into one
of the compositors (with the buffer's command list and the call's
arguments), or the whitespace fill below a container's last rendered child
(columns `x ≤ col < x + width`, rows `from_y ≤ row < upto_y`). -/
inductive RenderEvent where
  | composite (node : Nat) (wrap : Bool) (cmds : List TerminalCommand)
      (x y skip_lines max_lines : Nat)
  | fill (x width from_y upto_y : Nat)
  deriving DecidableEq, Repr

/-- The wrapped-cursor recalculation loop of `render_node` (lines
1429–1447), entered with `remaining_col ≥ rect.width`; returns the final
`(relative_col, relative_row)`.  Any fuel above
`remaining_col + rect.height` suffices. -/
def wrapCursorLoop : Nat → Nat → Nat → Nat → Nat → Nat × Nat
  | 0, _, _, remaining_col, visual_row => (remaining_col, visual_row)
  | fuel + 1, rw, rh, remaining_col, visual_row =>
    if remaining_col < rw then (remaining_col, visual_row)
    else
      let remaining_col := remaining_col - rw
      let visual_row := visual_row + 1
      if rh ≤ visual_row then (rw - 1, rh - 1)
      else wrapCursorLoop fuel rw rh remaining_col visual_row

/-- The per-node part of `render_node` (lines 1375–1459): build the virtual
buffer context, render-and-composite when dirty, recompute the wrapped
cursor, and record the screen cursor position for the focused node. -/
def render_component_phase (t : ComponentTree) (id : Nat) (rect : Rect)
    (formatting : Formatting) (scroll_x final_scroll_y : Nat)
    (cursor_tree_col cursor_tree_row : Nat) : ComponentTree × List RenderEvent :=
  match t.components[id]? with
  | none => (t, [])
  | some component =>
    let relative_row := cursor_tree_row - final_scroll_y
    let relative_col := cursor_tree_col - scroll_x
    let ctx : RenderCtx :=
      ⟨rect.width, rect.height, scroll_x, final_scroll_y, relative_col, relative_row,
        id = t.focus⟩
    let is_dirty_now := t.is_dirty id
    let cmds := component.renderCmds ctx
    let events :=
      if is_dirty_now && !cmds.isEmpty then
        [RenderEvent.composite id (formatting.overflow_x = .wrap) cmds rect.x rect.y 0
          rect.height]
      else []
    let rc : Nat × Nat :=
      if formatting.overflow_x = .wrap && rect.width ≤ relative_col then
        wrapCursorLoop (relative_col + rect.height + 1) rect.width rect.height
          relative_col relative_row
      else (relative_col, relative_row)
    let t :=
      if id = t.focus && rc.2 < rect.height && rc.1 < rect.width then
        { t with cursor_pos := some (rect.x + rc.1, rect.y + rc.2) }
      else t
    (t, events)

/-- The "mark visible children dirty" loop of `render_node` for vertical
layouts (lines 1468–1491). -/
def mark_visible_children (t : ComponentTree) :
    List Nat → Nat → Nat → Nat → Nat → ComponentTree
  | [], _, _, _, _ => t
  | c :: rest, child_index, parent_scroll_y, current_y, parent_bottom =>
    if child_index < parent_scroll_y then
      mark_visible_children t rest (child_index + 1) parent_scroll_y current_y parent_bottom
    else
      match t.rects[c]? with
      | none =>
        mark_visible_children t rest (child_index + 1) parent_scroll_y current_y parent_bottom
      | some child_rect =>
        if parent_bottom ≤ current_y then t
        else
          mark_visible_children (t.mark_dirty c) rest (child_index + 1) parent_scroll_y
            (current_y + child_rect.height) parent_bottom

/-- The trace loop of `render_node` (lines 1508–1520): walk up from the
focus until reaching a direct child of `container_id`, or the root. -/
def find_child_of_container : Nat → ComponentTree → Nat → Nat → Option Nat
  | 0 => fun _ _ _ => none
  | fuel + 1 => fun t container_id current =>
    match t.parentOf current with
    | some parent_id =>
      if parent_id = container_id then some current
      else find_child_of_container fuel t container_id parent_id
    | none => none

/-- Lines 1532–1542 and 1552–1561 of `render_node`: copy the cursor of the
old focused leaf onto the newly focused one, when both slots exist. -/
def copy_cursor (t : ComponentTree) (from_id to_id : Nat) : ComponentTree :=
  match t.cursor_col[from_id]?, t.cursor_row[from_id]? with
  | some old_cursor_col, some old_cursor_row =>
    { t with
      cursor_col := t.cursor_col.set to_id old_cursor_col
      cursor_row := t.cursor_row.set to_id old_cursor_row }
  | _, _ => t

/-- The mid-render focus clamping of `render_node` for vertical containers
(lines 1500–1568): if the focused descendant's direct-child index lies
outside the visible child range, move focus to the nearest visible child's
last focusable descendant.  `(visible_end - 1)` is `usize` arithmetic that
wraps at `visible_end = 0`, in which case the `min` picks the last child. -/
def focus_clamp_step (fuel : Nat) (t : ComponentTree) (id : Nat)
    (child_ids : List Nat) (parent_scroll_y parent_height : Nat) : ComponentTree :=
  let visible_end := parent_scroll_y + parent_height
  match find_child_of_container fuel t id t.focus with
  | none => t
  | some focused_child =>
    match child_ids.findIdx? (· = focused_child) with
    | none => t
    | some child_idx =>
      if child_idx < parent_scroll_y then
        match child_ids[parent_scroll_y]? with
        | some closest_child =>
          let deepest := find_last_focusable_descendant fuel t closest_child
          let t := copy_cursor t t.focus deepest
          let t := { t with focus := deepest }
          ComponentTree.update_focus_path fuel t
        | none => t
      else if visible_end ≤ child_idx then
        let last_visible_idx :=
          if visible_end = 0 then child_ids.length - 1
          else min (visible_end - 1) (child_ids.length - 1)
        match child_ids[last_visible_idx]? with
        | some closest_child =>
          let deepest := find_last_focusable_descendant fuel t closest_child
          let t := copy_cursor t t.focus deepest
          let t := { t with focus := deepest }
          ComponentTree.update_focus_path fuel t
        | none => t
      else t

/-- The scroll clamp of `render_node` (lines 1571–1581). -/
def scroll_limit_step (t : ComponentTree) (id : Nat) (child_ids : List Nat)
    (parent_scroll_y : Nat) (overflow_y : Overflow) : ComponentTree :=
  if overflow_y = .scroll && !child_ids.isEmpty then
    let max_scroll := child_ids.length
    if max_scroll ≤ parent_scroll_y then
      { t with scroll_y := t.scroll_y.set id (max_scroll - 1) }
    else t
  else t

/-- `rects.get_mut(c).map(|r| r.y = v)`. -/
def set_rect_y (t : ComponentTree) (c v : Nat) : ComponentTree :=
  match t.rects[c]? with
  | some r => { t with rects := t.rects.set c { r with y := v } }
  | none => t

/-- `rects.get_mut(c).map(|r| { r.x = vx; r.y = vy })`. -/
def set_rect_xy (t : ComponentTree) (c vx vy : Nat) : ComponentTree :=
  match t.rects[c]? with
  | some r => { t with rects := t.rects.set c { r with x := vx, y := vy } }
  | none => t

/-- The child-rendering loop of `render_node` (lines 1587–1684): `recur` is
the recursive `render_node` call.  Returns the final tree, the events of the
rendered children in order, and `lowest_rendered_y`. -/
def render_children (recur : ComponentTree → Nat → ComponentTree × List RenderEvent) :
    ComponentTree → List Nat → Nat → Bool → Nat → Rect → Nat → Option Nat →
    ComponentTree × List RenderEvent × Option Nat
  | t, [], _, _, _, _, _, lowest => (t, [], lowest)
  | t, c :: rest, child_index, is_vertical, final_scroll_y, parent_rect, current_screen_y,
      lowest =>
    if is_vertical && child_index < final_scroll_y then
      render_children recur t rest (child_index + 1) is_vertical final_scroll_y parent_rect
        current_screen_y lowest
    else
      match t.rects[c]? with
      | none =>
        render_children recur t rest (child_index + 1) is_vertical final_scroll_y parent_rect
          current_screen_y lowest
      | some r0 =>
        let original_y := r0.y
        let child_height := r0.height
        if is_vertical && parent_rect.y + parent_rect.height ≤ current_screen_y then
          (t, [], lowest)
        else if is_vertical &&
            parent_rect.y + parent_rect.height < current_screen_y + child_height then
          (t, [], lowest)
        else if is_vertical then
          let child_screen_bottom := current_screen_y + child_height
          let lowest' := some (match lowest with
            | none => child_screen_bottom
            | some current_lowest => max current_lowest child_screen_bottom)
          let t := set_rect_y t c current_screen_y
          let rec1 := recur t c
          let t := set_rect_y rec1.1 c original_y
          let r := render_children recur t rest (child_index + 1) is_vertical final_scroll_y
            parent_rect (current_screen_y + child_height) lowest'
          (r.1, rec1.2 ++ r.2.1, r.2.2)
        else
          let original_x := r0.x
          let _child_width := r0.width
          let child_screen_y := parent_rect.y + original_y
          let child_screen_x := parent_rect.x + original_x
          let child_screen_bottom := child_screen_y + child_height
          let lowest' := some (match lowest with
            | none => child_screen_bottom
            | some current_lowest => max current_lowest child_screen_bottom)
          let t := set_rect_xy t c child_screen_x child_screen_y
          let rec1 := recur t c
          let t := set_rect_xy rec1.1 c original_x original_y
          let r := render_children recur t rest (child_index + 1) is_vertical final_scroll_y
            parent_rect current_screen_y lowest'
          (r.1, rec1.2 ++ r.2.1, r.2.2)

/-- `ComponentTree::render_node` (lines 1352–1701), with fuel bounding the
recursion over the `children` table. -/
def render_node : Nat → ComponentTree → Nat → ComponentTree × List RenderEvent
  | 0 => fun t _ => (t, [])
  | fuel + 1 => fun t id =>
    let rect := t.rectOf id
    let formatting := t.fmtOf id
    let t := { t with cursor_initialized := t.cursor_initialized.set id true }
    let cursor_tree_col := t.cursorColOf id
    let cursor_tree_row := t.cursorRowOf id
    let scroll_x := t.scrollXOf id
    let scroll_y := t.scrollYOf id
    let final_scroll_y := scroll_y
    let phase := render_component_phase t id rect formatting scroll_x final_scroll_y
      cursor_tree_col cursor_tree_row
    let t := phase.1
    let component_events := phase.2
    match t.childrenOf id with
    | none => (t, component_events)
    | some child_ids_vec =>
      let parent_scroll_y := t.scrollYOf id
      let parent_rect := t.rectOf id
      let t :=
        if formatting.layout_mode = .verticalSplit then
          mark_visible_children t child_ids_vec 0 parent_scroll_y parent_rect.y
            (parent_rect.y + parent_rect.height)
        else
          child_ids_vec.foldl ComponentTree.mark_dirty t
      let t :=
        if formatting.layout_mode = .verticalSplit then
          focus_clamp_step (fuel + 1) t id child_ids_vec parent_scroll_y parent_rect.height
        else t
      let t := scroll_limit_step t id child_ids_vec parent_scroll_y formatting.overflow_y
      let r := render_children (render_node fuel) t child_ids_vec 0
        (formatting.layout_mode = .verticalSplit) final_scroll_y parent_rect parent_rect.y
        none
      let fill_events :=
        match r.2.2 with
        | some lowest_y =>
          if lowest_y < parent_rect.y + parent_rect.height then
            [RenderEvent.fill parent_rect.x parent_rect.width lowest_y
              (parent_rect.y + parent_rect.height)]
          else []
        | none => []
      (r.1, component_events ++ r.2.1 ++ fill_events)

/-- `ComponentTree::render` (lines 1333–1350): render from the root, then
reposition the terminal cursor (cursor directives only, no cell writes),
then clear the dirty set. -/
def render (fuel : Nat) (t : ComponentTree) : ComponentTree × List RenderEvent :=
  let r := render_node fuel t t.root
  (r.1.clear_dirty, r.2)

/-! Helper lemmas: `mark_dirty` touches only the `dirty` list. -/

@[simp] lemma mark_dirty_components (t : ComponentTree) (id : Nat) :
    (t.mark_dirty id).components = t.components := by
  unfold ComponentTree.mark_dirty; split <;> rfl

@[simp] lemma mark_dirty_parent (t : ComponentTree) (id : Nat) :
    (t.mark_dirty id).parent = t.parent := by
  unfold ComponentTree.mark_dirty; split <;> rfl

@[simp] lemma mark_dirty_children (t : ComponentTree) (id : Nat) :
    (t.mark_dirty id).children = t.children := by
  unfold ComponentTree.mark_dirty; split <;> rfl

@[simp] lemma mark_dirty_rects (t : ComponentTree) (id : Nat) :
    (t.mark_dirty id).rects = t.rects := by
  unfold ComponentTree.mark_dirty; split <;> rfl

@[simp] lemma mark_dirty_formatting (t : ComponentTree) (id : Nat) :
    (t.mark_dirty id).formatting = t.formatting := by
  unfold ComponentTree.mark_dirty; split <;> rfl

@[simp] lemma mark_dirty_focus (t : ComponentTree) (id : Nat) :
    (t.mark_dirty id).focus = t.focus := by
  unfold ComponentTree.mark_dirty; split <;> rfl

@[simp] lemma mark_dirty_root (t : ComponentTree) (id : Nat) :
    (t.mark_dirty id).root = t.root := by
  unfold ComponentTree.mark_dirty; split <;> rfl

@[simp] lemma mark_dirty_scroll_x (t : ComponentTree) (id : Nat) :
    (t.mark_dirty id).scroll_x = t.scroll_x := by
  unfold ComponentTree.mark_dirty; split <;> rfl

@[simp] lemma mark_dirty_scroll_y (t : ComponentTree) (id : Nat) :
    (t.mark_dirty id).scroll_y = t.scroll_y := by
  unfold ComponentTree.mark_dirty; split <;> rfl

@[simp] lemma mark_dirty_cursor_col (t : ComponentTree) (id : Nat) :
    (t.mark_dirty id).cursor_col = t.cursor_col := by
  unfold ComponentTree.mark_dirty; split <;> rfl

@[simp] lemma mark_dirty_cursor_row (t : ComponentTree) (id : Nat) :
    (t.mark_dirty id).cursor_row = t.cursor_row := by
  unfold ComponentTree.mark_dirty; split <;> rfl

@[simp] lemma mark_dirty_cursor_initialized (t : ComponentTree) (id : Nat) :
    (t.mark_dirty id).cursor_initialized = t.cursor_initialized := by
  unfold ComponentTree.mark_dirty; split <;> rfl

@[simp] lemma mark_dirty_cursor_style (t : ComponentTree) (id : Nat) :
    (t.mark_dirty id).cursor_style = t.cursor_style := by
  unfold ComponentTree.mark_dirty; split <;> rfl

@[simp] lemma mark_dirty_focus_path (t : ComponentTree) (id : Nat) :
    (t.mark_dirty id).focus_path = t.focus_path := by
  unfold ComponentTree.mark_dirty; split <;> rfl

@[simp] lemma mark_dirty_pending (t : ComponentTree) (id : Nat) :
    (t.mark_dirty id).pending_initialization = t.pending_initialization := by
  unfold ComponentTree.mark_dirty; split <;> rfl

@[simp] lemma mark_dirty_cursor_pos (t : ComponentTree) (id : Nat) :
    (t.mark_dirty id).cursor_pos = t.cursor_pos := by
  unfold ComponentTree.mark_dirty; split <;> rfl

/-- `mark_dirty` keeps every previously dirty id and adds the new one. -/
lemma mem_mark_dirty (t : ComponentTree) (id : Nat) : id ∈ (t.mark_dirty id).dirty := by
  unfold ComponentTree.mark_dirty
  split
  · assumption
  · simp

/-! Shared concrete components for the concrete evaluations below. -/

/-- A leaf that renders five characters regardless of the buffer. -/
def exRender5 : RenderCtx → List TerminalCommand :=
  fun _ => List.replicate 5 (TerminalCommand.print 'a')

/-- Formatting of a focus-requesting, focusable leaf. -/
def exFocusFmt : Formatting := { Formatting.default with request_focus := true }

/-! ### Claim C8 — `Percent` resolution -/

/-- Claim C8 (amended): resolving `Percent(p)` against available space `A`
yields `((A * min(p,100)) mod 2^16) / 100` — the `u16` product wraps — which
equals the claimed `(A*p)/100` truncation (with `p` clamped to 100) exactly
when the clamped product stays below `2^16`. -/
theorem calculate_size_percent (available p : Nat) :
    calculate_size (.percent p) available = available * min p 100 % U16_MOD / 100 ∧
    (available * min p 100 < U16_MOD →
      calculate_size (.percent p) available = available * min p 100 / 100) := by
  refine ⟨rfl, fun h => ?_⟩
  simp [calculate_size, Nat.mod_eq_of_lt h]

/-- Witness for `calculate_size_percent`: the spec's own example
`Percent(50)` against `7` yields `3`. -/
theorem calculate_size_percent_witness :
    calculate_size (.percent 50) 7 = 7 * min 50 100 / 100 ∧
    calculate_size (.percent 50) 7 = 3 := by
  have h := (calculate_size_percent 7 50).2 (by norm_num [U16_MOD])
  exact ⟨h, by rw [h]; decide⟩

/-- Counterexample to claim C8 as stated: for available space `656` and
`Percent(100)` the `u16` product `65600` wraps to `64`, so the code yields
`0`, not the claimed truncated value `656`. -/
theorem percent_overflow_counterexample :
    calculate_size (.percent 100) 656 = 0 ∧ 656 * 100 / 100 = 656 := by
  constructor
  · simp [calculate_size, U16_MOD]
  · norm_num

/-! ### Claim C7 — `add_child` failure behaviour -/

/-- Claim C7: `add_child_with_formatting` fails with the
"component not found" error exactly when the parent id exceeds the arena's
size; on failure the tree is returned unchanged, and on success the new
node's id is the old arena size. -/
theorem add_child_error_iff_bad_parent (t : ComponentTree) (parent_id : Nat)
    (child : ComponentNode) (formatting : Formatting) :
    ((t.add_child_with_formatting parent_id child formatting).2 =
        .error "Parent component not found" ↔ t.components.length ≤ parent_id) ∧
    (t.components.length ≤ parent_id →
      (t.add_child_with_formatting parent_id child formatting).1 = t) ∧
    (parent_id < t.components.length →
      (t.add_child_with_formatting parent_id child formatting).2 =
        .ok t.components.length) := by
  by_cases h : t.components.length ≤ parent_id
  · refine ⟨⟨fun _ => h, fun _ => ?_⟩, fun _ => ?_, fun hlt => absurd hlt (by omega)⟩ <;>
      simp [ComponentTree.add_child_with_formatting, h]
  · refine ⟨⟨fun herr => ?_, fun hh => absurd hh h⟩, fun hh => absurd hh h, fun _ => ?_⟩
    · exact absurd herr (by simp [ComponentTree.add_child_with_formatting, h])
    · simp [ComponentTree.add_child_with_formatting, h]

/-- Witness for `add_child_error_iff_bad_parent`: adding under missing
parent `5` of a one-node tree fails, and adding under the root succeeds
with the fresh id `1`. -/
theorem add_child_error_iff_bad_parent_witness :
    ((ComponentTree.new (.frame .verticalSplit)).add_child_with_formatting 5
        (.frame .verticalSplit) Formatting.default).2 =
      .error "Parent component not found" ∧
    ((ComponentTree.new (.frame .verticalSplit)).add_child_with_formatting 0
        (.comp exRender5 Formatting.default) Formatting.default).2 = .ok 1 := by
  constructor
  · exact (add_child_error_iff_bad_parent (ComponentTree.new (.frame .verticalSplit)) 5
      (.frame .verticalSplit) Formatting.default).1.mpr (by decide)
  · exact (add_child_error_iff_bad_parent (ComponentTree.new (.frame .verticalSplit)) 0
      (.comp exRender5 Formatting.default) Formatting.default).2.2 (by decide)

/-! ### Claim C1 — focus path after `add_child` with `request_focus` -/

/-- The one-node tree plus a focus-requesting leaf under the root. -/
def exTreeC1 : ComponentTree :=
  ((ComponentTree.new (.frame .verticalSplit)).add_child_with_formatting 0
    (.comp exRender5 Formatting.default) exFocusFmt).1

/-- Claim C1, evaluated at the failing input: after `add_child` with
`request_focus` set, the focus moves to the new node `1` but the focus path
stays `[0]`, while the parent chain of the new focus (what
`build_focus_path` computes, and what the `focus_path` field is documented
to hold) is `[0, 1]`. -/
theorem add_child_request_focus_leaves_stale_focus_path :
    exTreeC1.focus = 1 ∧ exTreeC1.focus_path = [0] ∧
    ComponentTree.build_focus_path 2 exTreeC1 1 = [0, 1] ∧
    exTreeC1.focus_path ≠ ComponentTree.build_focus_path 2 exTreeC1 exTreeC1.focus := by
  refine ⟨rfl, rfl, rfl, by decide⟩

/-! ### Claim C9 — fresh ids and table growth in `add_child` -/

/-- Reading below the old length is unchanged by appending one element. -/
lemma getElem?_append_left' {α : Type} (l : List α) (a : α) (i : Nat)
    (hi : i < l.length) : (l ++ [a])[i]? = l[i]? := by
  rw [List.getElem?_append]; simp [hi]

section AddChildFields

variable (t : ComponentTree) (parent_id : Nat) (child : ComponentNode)
variable (formatting : Formatting)

lemma add_child_ok_res (h : parent_id < t.components.length) :
    (t.add_child_with_formatting parent_id child formatting).2 =
      .ok t.components.length := by
  have hnot : ¬ (t.components.length ≤ parent_id) := by omega
  cases hf : child.isFrame <;> cases hr : formatting.request_focus <;>
    simp [ComponentTree.add_child_with_formatting, if_neg hnot, hf, hr]

lemma add_child_ok_components (h : parent_id < t.components.length) :
    (t.add_child_with_formatting parent_id child formatting).1.components =
      t.components ++ [child] := by
  have hnot : ¬ (t.components.length ≤ parent_id) := by omega
  cases hf : child.isFrame <;> cases hr : formatting.request_focus <;>
    simp [ComponentTree.add_child_with_formatting, if_neg hnot, hf, hr]

lemma add_child_ok_parent (h : parent_id < t.components.length) :
    (t.add_child_with_formatting parent_id child formatting).1.parent =
      t.parent ++ [some parent_id] := by
  have hnot : ¬ (t.components.length ≤ parent_id) := by omega
  cases hf : child.isFrame <;> cases hr : formatting.request_focus <;>
    simp [ComponentTree.add_child_with_formatting, if_neg hnot, hf, hr]

lemma add_child_ok_rects (h : parent_id < t.components.length) :
    (t.add_child_with_formatting parent_id child formatting).1.rects =
      t.rects ++ [Rect.mk 0 0 0 0] := by
  have hnot : ¬ (t.components.length ≤ parent_id) := by omega
  cases hf : child.isFrame <;> cases hr : formatting.request_focus <;>
    simp [ComponentTree.add_child_with_formatting, if_neg hnot, hf, hr]

lemma add_child_ok_formatting (h : parent_id < t.components.length) :
    (t.add_child_with_formatting parent_id child formatting).1.formatting =
      t.formatting ++ [formatting] := by
  have hnot : ¬ (t.components.length ≤ parent_id) := by omega
  cases hf : child.isFrame <;> cases hr : formatting.request_focus <;>
    simp [ComponentTree.add_child_with_formatting, if_neg hnot, hf, hr]

lemma add_child_ok_scroll_x (h : parent_id < t.components.length) :
    (t.add_child_with_formatting parent_id child formatting).1.scroll_x =
      t.scroll_x ++ [0] := by
  have hnot : ¬ (t.components.length ≤ parent_id) := by omega
  cases hf : child.isFrame <;> cases hr : formatting.request_focus <;>
    simp [ComponentTree.add_child_with_formatting, if_neg hnot, hf, hr]

lemma add_child_ok_scroll_y (h : parent_id < t.components.length) :
    (t.add_child_with_formatting parent_id child formatting).1.scroll_y =
      t.scroll_y ++ [0] := by
  have hnot : ¬ (t.components.length ≤ parent_id) := by omega
  cases hf : child.isFrame <;> cases hr : formatting.request_focus <;>
    simp [ComponentTree.add_child_with_formatting, if_neg hnot, hf, hr]

lemma add_child_ok_cursor_col (h : parent_id < t.components.length) :
    (t.add_child_with_formatting parent_id child formatting).1.cursor_col =
      t.cursor_col ++ [0] := by
  have hnot : ¬ (t.components.length ≤ parent_id) := by omega
  cases hf : child.isFrame <;> cases hr : formatting.request_focus <;>
    simp [ComponentTree.add_child_with_formatting, if_neg hnot, hf, hr]

lemma add_child_ok_cursor_row (h : parent_id < t.components.length) :
    (t.add_child_with_formatting parent_id child formatting).1.cursor_row =
      t.cursor_row ++ [0] := by
  have hnot : ¬ (t.components.length ≤ parent_id) := by omega
  cases hf : child.isFrame <;> cases hr : formatting.request_focus <;>
    simp [ComponentTree.add_child_with_formatting, if_neg hnot, hf, hr]

lemma add_child_ok_cursor_initialized (h : parent_id < t.components.length) :
    (t.add_child_with_formatting parent_id child formatting).1.cursor_initialized =
      t.cursor_initialized ++ [false] := by
  have hnot : ¬ (t.components.length ≤ parent_id) := by omega
  cases hf : child.isFrame <;> cases hr : formatting.request_focus <;>
    simp [ComponentTree.add_child_with_formatting, if_neg hnot, hf, hr]

lemma add_child_ok_cursor_style (h : parent_id < t.components.length) :
    (t.add_child_with_formatting parent_id child formatting).1.cursor_style =
      t.cursor_style ++ [CursorStyle.block] := by
  have hnot : ¬ (t.components.length ≤ parent_id) := by omega
  cases hf : child.isFrame <;> cases hr : formatting.request_focus <;>
    simp [ComponentTree.add_child_with_formatting, if_neg hnot, hf, hr]

lemma add_child_ok_children (h : parent_id < t.components.length) :
    (t.add_child_with_formatting parent_id child formatting).1.children =
      (t.children ++ [[]]).set parent_id
        (((t.children ++ [[]])[parent_id]?).getD [] ++ [t.components.length]) := by
  have hnot : ¬ (t.components.length ≤ parent_id) := by omega
  cases hf : child.isFrame <;> cases hr : formatting.request_focus <;>
    simp [ComponentTree.add_child_with_formatting, if_neg hnot, hf, hr]

end AddChildFields

/-- Claim C9 (amended): a successful `add_child` returns the arena size as
the new id, grows every per-node table by exactly one entry, and leaves
every existing entry unchanged — except that the parent's `children` entry
has the new id appended (and `focus`/`dirty`/`pending_initialization` may
also change, tree-level state the claim does not list). -/
theorem add_child_fresh_id_and_table_growth (t : ComponentTree) (parent_id : Nat)
    (child : ComponentNode) (formatting : Formatting)
    (h : parent_id < t.components.length) (t' : ComponentTree)
    (res : Except String Nat)
    (heq : t.add_child_with_formatting parent_id child formatting = (t', res)) :
    res = .ok t.components.length ∧
    t'.components.length = t.components.length + 1 ∧
    t'.parent.length = t.parent.length + 1 ∧
    t'.children.length = t.children.length + 1 ∧
    t'.rects.length = t.rects.length + 1 ∧
    t'.formatting.length = t.formatting.length + 1 ∧
    t'.scroll_x.length = t.scroll_x.length + 1 ∧
    t'.scroll_y.length = t.scroll_y.length + 1 ∧
    t'.cursor_col.length = t.cursor_col.length + 1 ∧
    t'.cursor_row.length = t.cursor_row.length + 1 ∧
    t'.cursor_initialized.length = t.cursor_initialized.length + 1 ∧
    t'.cursor_style.length = t.cursor_style.length + 1 ∧
    (∀ i, i < t.components.length → t'.components[i]? = t.components[i]?) ∧
    (∀ i, i < t.parent.length → t'.parent[i]? = t.parent[i]?) ∧
    (∀ i, i < t.rects.length → t'.rects[i]? = t.rects[i]?) ∧
    (∀ i, i < t.formatting.length → t'.formatting[i]? = t.formatting[i]?) ∧
    (∀ i, i < t.scroll_x.length → t'.scroll_x[i]? = t.scroll_x[i]?) ∧
    (∀ i, i < t.scroll_y.length → t'.scroll_y[i]? = t.scroll_y[i]?) ∧
    (∀ i, i < t.cursor_col.length → t'.cursor_col[i]? = t.cursor_col[i]?) ∧
    (∀ i, i < t.cursor_row.length → t'.cursor_row[i]? = t.cursor_row[i]?) ∧
    (∀ i, i < t.cursor_initialized.length →
      t'.cursor_initialized[i]? = t.cursor_initialized[i]?) ∧
    (∀ i, i < t.cursor_style.length → t'.cursor_style[i]? = t.cursor_style[i]?) ∧
    (∀ i, i < t.children.length → i ≠ parent_id → t'.children[i]? = t.children[i]?) ∧
    (parent_id < t.children.length →
      t'.children[parent_id]? =
        some ((t.children[parent_id]?).getD [] ++ [t.components.length])) := by
  have ht' : t' = (t.add_child_with_formatting parent_id child formatting).1 := by
    rw [heq]
  have hres : res = (t.add_child_with_formatting parent_id child formatting).2 := by
    rw [heq]
  subst ht' hres
  rw [add_child_ok_res t parent_id child formatting h,
    add_child_ok_components t parent_id child formatting h,
    add_child_ok_parent t parent_id child formatting h,
    add_child_ok_rects t parent_id child formatting h,
    add_child_ok_formatting t parent_id child formatting h,
    add_child_ok_scroll_x t parent_id child formatting h,
    add_child_ok_scroll_y t parent_id child formatting h,
    add_child_ok_cursor_col t parent_id child formatting h,
    add_child_ok_cursor_row t parent_id child formatting h,
    add_child_ok_cursor_initialized t parent_id child formatting h,
    add_child_ok_cursor_style t parent_id child formatting h,
    add_child_ok_children t parent_id child formatting h]
  refine ⟨rfl, by simp, by simp, by simp, by simp, by simp, by simp, by simp, by simp,
    by simp, by simp, by simp,
    fun i hi => getElem?_append_left' _ _ _ hi,
    fun i hi => getElem?_append_left' _ _ _ hi,
    fun i hi => getElem?_append_left' _ _ _ hi,
    fun i hi => getElem?_append_left' _ _ _ hi,
    fun i hi => getElem?_append_left' _ _ _ hi,
    fun i hi => getElem?_append_left' _ _ _ hi,
    fun i hi => getElem?_append_left' _ _ _ hi,
    fun i hi => getElem?_append_left' _ _ _ hi,
    fun i hi => getElem?_append_left' _ _ _ hi,
    fun i hi => getElem?_append_left' _ _ _ hi,
    fun i hi hne => ?_, fun hp => ?_⟩
  · rw [List.getElem?_set_ne (by omega)]
    exact getElem?_append_left' _ _ _ (by simpa using hi)
  · rw [List.getElem?_set_self (by simp; omega), getElem?_append_left' _ _ _ hp]

/-! ### Claims C5 and C10 — `measure_content` -/

/-- An unbroken run of `n` printed characters. -/
def printRun (n : Nat) (ch : Char) : List TerminalCommand :=
  List.replicate n (TerminalCommand.print ch)

/-- Style and clear commands, ignored by `measure_content`. -/
def isStyleCmd : TerminalCommand → Bool
  | .setForeground _ => true
  | .setBackground _ => true
  | .clearCmd => true
  | _ => false

/-- State of the `measure_content` fold after `q` characters of an unbroken
print run at width `w` (valid while no `u16` counter has wrapped). -/
def printRunState (w q : Nat) : Nat × Nat × Nat :=
  (min q w, 1 + (q - 1) / w, if q = 0 then 0 else (q - 1) % w + 1)

lemma printRunState_zero (w : Nat) : printRunState w 0 = (0, 1, 0) := by
  simp [printRunState]

lemma replicate_ne_nil' {α : Type} (k : Nat) (a : α) (hk : 0 < k) :
    List.replicate k a ≠ [] := by
  intro hcon
  have hlen := congrArg List.length hcon
  simp at hlen
  omega

lemma measure_content_eq_fold (w : Nat) (cmds : List TerminalCommand) (h : cmds ≠ []) :
    measure_content w cmds =
      ((cmds.foldl (measureStep w) (0, 1, 0)).1,
        (cmds.foldl (measureStep w) (0, 1, 0)).2.1) := by
  unfold measure_content
  simp [List.isEmpty_iff, h]

/-- One print step advances the run state, while both `u16` counters stay in
range (guaranteed by the two side conditions). -/
lemma measureStep_print_run (w q : Nat) (ch : Char) (hw : 0 < w) (hw2 : w ≤ 65535)
    (hA : w ≤ 65534 ∨ q + 1 ≤ w) (hB : q + 1 ≤ 65535 * w) :
    measureStep w (printRunState w q) (.print ch) = printRunState w (q + 1) := by
  rcases Nat.eq_zero_or_pos q with hq | hq
  · subst hq
    rw [printRunState_zero]
    simp only [measureStep, wrapSucc16, U16_MOD, printRunState]
    norm_num
    rw [if_neg (by omega : ¬ w = 0)]
    simp [Nat.min_eq_left hw]
  · obtain ⟨q', rfl⟩ : ∃ q', q = q' + 1 := ⟨q - 1, by omega⟩
    have hr : q' % w < w := Nat.mod_lt q' hw
    have hdm : q' / w * w + q' % w = q' := by
      rw [Nat.mul_comm]
      exact Nat.div_add_mod q' w
    have hstate : printRunState w (q' + 1) = (min (q' + 1) w, 1 + q' / w, q' % w + 1) := by
      simp [printRunState]
    have htarget : printRunState w (q' + 1 + 1) =
        (min (q' + 2) w, 1 + (q' + 1) / w, (q' + 1) % w + 1) := by
      simp [printRunState]
    have hmod : (q' % w + 1 + 1) % 65536 = q' % w + 2 := by
      rcases hA with h1 | h1
      · exact Nat.mod_eq_of_lt (by omega)
      · have hq'w : q' % w = q' := Nat.mod_eq_of_lt (by omega)
        exact Nat.mod_eq_of_lt (by omega)
    rw [hstate, htarget]
    simp only [measureStep, wrapSucc16, U16_MOD]
    rw [hmod]
    by_cases hcase : q' % w + 1 = w
    · -- the run wraps to a new row: `q' + 1` is a multiple of `w`
      rw [if_pos (by omega)]
      have hqe : q' + 1 = (q' / w + 1) * w := by
        rw [Nat.add_mul, Nat.one_mul]
        omega
      have hmod0 : (q' + 1) % w = 0 := by rw [hqe]; exact Nat.mul_mod_left _ _
      have hdiv : (q' + 1) / w = q' / w + 1 := by
        rw [hqe, Nat.mul_div_cancel _ hw]
      have hdlt : (q' + 1) / w < 65535 := Nat.div_lt_of_lt_mul (by omega)
      have hheight : (1 + q' / w + 1) % 65536 = 1 + q' / w + 1 :=
        Nat.mod_eq_of_lt (by omega)
      rw [hheight]
      simp only [Prod.mk.injEq]
      refine ⟨by omega, by omega, by omega⟩
    · -- still on the same row
      rw [if_neg (by omega)]
      have hqe : q' + 1 = (q' % w + 1) + q' / w * w := by omega
      have hmod1 : (q' + 1) % w = q' % w + 1 := by
        rw [hqe, Nat.add_mul_mod_self_right]
        exact Nat.mod_eq_of_lt (by omega)
      have hdiv1 : (q' + 1) / w = q' / w := by
        rw [hqe, Nat.add_mul_div_right _ _ hw, Nat.div_eq_of_lt (by omega), Nat.zero_add]
      simp only [Prod.mk.injEq]
      refine ⟨?_, by omega, by omega⟩
      rcases Nat.lt_or_ge (q' + 1) w with hlt | hge
      · have hq'w : q' % w = q' := Nat.mod_eq_of_lt (by omega)
        omega
      · omega

/-- The `measure_content` fold over a print run, stepped from any offset. -/
lemma measure_fold_print_run (w : Nat) (ch : Char) (hw : 0 < w) (hw2 : w ≤ 65535) :
    ∀ n q, (w ≤ 65534 ∨ q + n ≤ w) → q + n ≤ 65535 * w →
      (printRun n ch).foldl (measureStep w) (printRunState w q) =
        printRunState w (q + n) := by
  intro n
  induction n with
  | zero => intro q _ _; simp [printRun]
  | succ n ih =>
    intro q hA hB
    have hstep := measureStep_print_run w q ch hw hw2
      (by rcases hA with h | h
          exacts [Or.inl h, Or.inr (by omega)])
      (by omega)
    have hc : printRun (n + 1) ch = .print ch :: printRun n ch := by
      simp [printRun, List.replicate_succ]
    rw [hc, List.foldl_cons, hstep,
      ih (q + 1)
        (by rcases hA with h | h
            exacts [Or.inl h, Or.inr (by omega)])
        (by omega)]
    congr 1
    omega

/-- Claim C5 (amended): measuring an unbroken run of `n ≥ 1` printed
characters yields `(n, 1)` when `n ≤ w`, and `(w, ⌈n/w⌉)` when
`1 ≤ w < n` — provided the `u16` counters stay in range (`w ≤ 65534` and
`⌈n/w⌉ ≤ 65535`, i.e. `n ≤ 65535·w`); the empty command list measures
`(0, 0)`. -/
theorem measure_content_print_run (w n : Nat) (ch : Char) :
    measure_content w [] = (0, 0) ∧
    (1 ≤ n → n ≤ w → w ≤ 65535 → measure_content w (printRun n ch) = (n, 1)) ∧
    (1 ≤ w → w ≤ 65534 → w < n → n ≤ 65535 * w →
      measure_content w (printRun n ch) = (w, (n + w - 1) / w)) := by
  refine ⟨rfl, ?_, ?_⟩
  · intro hn hnw hwle
    have hw : 0 < w := by omega
    have hne : printRun n ch ≠ [] := replicate_ne_nil' n _ (by omega)
    have hB : n ≤ 65535 * w := by
      calc n ≤ w := hnw
      _ = 1 * w := (Nat.one_mul w).symm
      _ ≤ 65535 * w := Nat.mul_le_mul_right w (by norm_num)
    have hfold := measure_fold_print_run w ch hw hwle n 0 (Or.inr (by omega)) (by omega)
    rw [printRunState_zero] at hfold
    rw [measure_content_eq_fold w _ hne]
    rw [show (0 : Nat) + n = n from by omega] at hfold
    rw [hfold]
    have h1 : min n w = n := Nat.min_eq_left hnw
    have h2 : (n - 1) / w = 0 := Nat.div_eq_of_lt (by omega)
    simp [printRunState, h1, h2]
  · intro hw1 hw2 hwn hB
    have hw : 0 < w := by omega
    have hne : printRun n ch ≠ [] := replicate_ne_nil' n _ (by omega)
    have hfold := measure_fold_print_run w ch hw (by omega) n 0 (Or.inl hw2) (by omega)
    rw [printRunState_zero] at hfold
    rw [measure_content_eq_fold w _ hne]
    rw [show (0 : Nat) + n = n from by omega] at hfold
    rw [hfold]
    have h1 : min n w = w := Nat.min_eq_right (by omega)
    have h3 : (n + w - 1) / w = (n - 1) / w + 1 := by
      rw [show n + w - 1 = (n - 1) + w from by omega, Nat.add_div_right _ hw]
    simp [printRunState, h1, h3]
    omega

/-- Witness for `measure_content_print_run`: a 3-character run at width 5
measures `(3, 1)`; a 5-character run at width 2 measures `(2, 3)`. -/
theorem measure_content_print_run_witness :
    measure_content 5 (printRun 3 'a') = (3, 1) ∧
    measure_content 2 (printRun 5 'a') = (2, 3) := by
  refine ⟨(measure_content_print_run 5 3 'a').2.1 (by norm_num) (by norm_num)
    (by norm_num), ?_⟩
  have h := (measure_content_print_run 2 5 'a').2.2 (by norm_num) (by norm_num)
    (by norm_num) (by norm_num)
  simpa using h

/-- The fold over a print run at width 1, across the `u16` wrap of the row
counter. -/
lemma measure_fold_w1 (ch : Char) :
    ∀ k h, h < 65536 →
      (printRun k ch).foldl (measureStep 1) (1, h, 1) = (1, (h + k) % 65536, 1) := by
  intro k
  induction k with
  | zero =>
    intro h hh
    simp [printRun, Nat.mod_eq_of_lt hh]
  | succ k ih =>
    intro h hh
    have hstep : measureStep 1 (1, h, 1) (.print ch) = (1, (h + 1) % 65536, 1) := by
      unfold measureStep wrapSucc16 U16_MOD
      norm_num
    have hc : printRun (k + 1) ch = .print ch :: printRun k ch := by
      simp [printRun, List.replicate_succ]
    rw [hc, List.foldl_cons, hstep, ih ((h + 1) % 65536) (Nat.mod_lt _ (by norm_num))]
    have : ((h + 1) % 65536 + k) % 65536 = (h + (k + 1)) % 65536 := by
      rw [Nat.mod_add_mod]
      congr 1
      omega
    rw [this]

/-- Counterexample to claim C5 as stated: a run of `2^16` characters at
width 1 measures `(1, 0)` — the `u16` row counter wraps — not the claimed
`(1, ⌈65536/1⌉) = (1, 65536)`. -/
theorem measure_content_run_wraps_u16 :
    measure_content 1 (printRun 65536 'a') = (1, 0) ∧
    (65536 + 1 - 1) / 1 = 65536 := by
  constructor
  · have hne : printRun 65536 'a' ≠ [] := replicate_ne_nil' _ _ (by norm_num)
    have hc : printRun 65536 'a' = .print 'a' :: printRun 65535 'a' := by
      unfold printRun
      rw [show (65536 : Nat) = 65535 + 1 from by norm_num, List.replicate_succ]
    have hstep : measureStep 1 (0, 1, 0) (TerminalCommand.print 'a') = (1, 1, 1) := by
      unfold measureStep wrapSucc16 U16_MOD
      norm_num
    rw [measure_content_eq_fold 1 _ hne, hc, List.foldl_cons, hstep,
      measure_fold_w1 'a' 65535 1 (by norm_num)]
  · norm_num

/-- Style-only commands leave the fold state unchanged. -/
lemma measure_fold_style (w : Nat) :
    ∀ cmds : List TerminalCommand, (∀ c ∈ cmds, isStyleCmd c = true) →
      ∀ s, cmds.foldl (measureStep w) s = s := by
  intro cmds
  induction cmds with
  | nil => intro _ s; rfl
  | cons c rest ih =>
    intro hall s
    have hc : isStyleCmd c = true := hall c (by simp)
    have hstep : measureStep w s c = s := by
      cases c <;> simp_all [isStyleCmd, measureStep]
    rw [List.foldl_cons, hstep, ih (fun x hx => hall x (by simp [hx])) s]

/-- The fold over a row-break run, across the `u16` wrap of the row
counter. -/
lemma measure_fold_newlines (w : Nat) :
    ∀ k h, h < 65536 →
      (List.replicate k TerminalCommand.newline).foldl (measureStep w) (0, h, 0) =
        (0, (h + k) % 65536, 0) := by
  intro k
  induction k with
  | zero =>
    intro h hh
    simp [Nat.mod_eq_of_lt hh]
  | succ k ih =>
    intro h hh
    have hstep : measureStep w (0, h, 0) .newline = (0, (h + 1) % 65536, 0) := by
      unfold measureStep wrapSucc16 U16_MOD
      rfl
    rw [List.replicate_succ, List.foldl_cons, hstep,
      ih ((h + 1) % 65536) (Nat.mod_lt _ (by norm_num))]
    have : ((h + 1) % 65536 + k) % 65536 = (h + (k + 1)) % 65536 := by
      rw [Nat.mod_add_mod]
      congr 1
      omega
    rw [this]

/-- The row counter of the fold starts at 1 and grows by at most one per
command, so short command lists keep it in `[1, 65535]`. -/
lemma measure_fold_height_bounds (w : Nat) :
    ∀ (cmds : List TerminalCommand) (s : Nat × Nat × Nat), 1 ≤ s.2.1 →
      s.2.1 + cmds.length ≤ 65535 →
      1 ≤ (cmds.foldl (measureStep w) s).2.1 ∧
        (cmds.foldl (measureStep w) s).2.1 ≤ s.2.1 + cmds.length := by
  intro cmds
  induction cmds with
  | nil => intro s h1 h2; simpa using h1
  | cons c rest ih =>
    intro s h1 h2
    have hlen : s.2.1 + (rest.length + 1) ≤ 65535 := by
      simpa using h2
    have hstep : 1 ≤ (measureStep w s c).2.1 ∧ (measureStep w s c).2.1 ≤ s.2.1 + 1 := by
      cases c
      case print ch =>
        simp only [measureStep, wrapSucc16, U16_MOD]
        split <;> refine ⟨?_, ?_⟩ <;> (try simp) <;> omega
      case newline =>
        simp only [measureStep, wrapSucc16, U16_MOD]
        refine ⟨?_, ?_⟩ <;> omega
      case setForeground color => simp [measureStep]; omega
      case setBackground color => simp [measureStep]; omega
      case clearCmd => simp [measureStep]; omega
    have hrec := ih (measureStep w s c) hstep.1 (by omega)
    rw [List.foldl_cons]
    exact ⟨hrec.1, by (try simp); omega⟩

/-- Claim C10 (amended): `measure_content` returns `(0,0)` for the empty
command list; a non-empty style/clear-only buffer measures `(0,1)`; `k`
row-breaks alone measure `(0, 1+k)` for `1 ≤ k ≤ 65534`; and for command
lists short enough that the `u16` row counter cannot wrap (at most 65534
commands), `(0,0)` is returned exactly for the empty list. -/
theorem measure_content_empty_and_breaks (w : Nat) :
    measure_content w [] = (0, 0) ∧
    (∀ cmds : List TerminalCommand, cmds ≠ [] → (∀ c ∈ cmds, isStyleCmd c = true) →
      measure_content w cmds = (0, 1)) ∧
    (∀ k, 1 ≤ k → k ≤ 65534 →
      measure_content w (List.replicate k TerminalCommand.newline) = (0, 1 + k)) ∧
    (∀ cmds : List TerminalCommand, cmds.length ≤ 65534 →
      (measure_content w cmds = (0, 0) ↔ cmds = [])) := by
  refine ⟨rfl, ?_, ?_, ?_⟩
  · intro cmds hne hall
    rw [measure_content_eq_fold w _ hne, measure_fold_style w cmds hall]
  · intro k hk1 hk2
    have hne : List.replicate k TerminalCommand.newline ≠ [] :=
      replicate_ne_nil' k _ (by omega)
    rw [measure_content_eq_fold w _ hne, measure_fold_newlines w k 1 (by norm_num)]
    simp [Nat.mod_eq_of_lt (show 1 + k < 65536 by omega)]
  · intro cmds hlen
    constructor
    · intro hzero
      by_contra hne
      have hb := measure_fold_height_bounds w cmds (0, 1, 0) (by norm_num)
        (by simp; omega)
      rw [measure_content_eq_fold w _ hne] at hzero
      have hsnd := congrArg Prod.snd hzero
      simp at hsnd
      omega
    · intro h
      subst h
      rfl

/-- Witness for `measure_content_empty_and_breaks`: a single style command
measures `(0, 1)` and two row-breaks measure `(0, 3)`. -/
theorem measure_content_empty_and_breaks_witness :
    measure_content 4 [TerminalCommand.setForeground 7] = (0, 1) ∧
    measure_content 4 (List.replicate 2 TerminalCommand.newline) = (0, 3) ∧
    (measure_content 4 [TerminalCommand.setForeground 7] = (0, 0) ↔
      ([TerminalCommand.setForeground 7] : List TerminalCommand) = []) := by
  refine ⟨?_, ?_, ?_⟩
  · exact (measure_content_empty_and_breaks 4).2.1 [TerminalCommand.setForeground 7]
      (by simp) (by simp [isStyleCmd])
  · exact (measure_content_empty_and_breaks 4).2.2.1 2 (by norm_num) (by norm_num)
  · exact (measure_content_empty_and_breaks 4).2.2.2 [TerminalCommand.setForeground 7]
      (by simp)

/-- Counterexample to claim C10 as stated: `65535` row-break commands are a
non-empty buffer, yet the wrapped `u16` row counter makes `measure_content`
return `(0, 0)`. -/
theorem measure_content_empty_iff_counterexample :
    measure_content 0 (List.replicate 65535 TerminalCommand.newline) = (0, 0) ∧
    List.replicate 65535 TerminalCommand.newline ≠ [] := by
  have hne : List.replicate 65535 TerminalCommand.newline ≠ [] :=
    replicate_ne_nil' _ _ (by norm_num)
  refine ⟨?_, hne⟩
  rw [measure_content_eq_fold 0 _ hne, measure_fold_newlines 0 65535 1 (by norm_num)]

/-- The one-node tree plus one default-formatted leaf under the root. -/
def exTreeC9 : ComponentTree :=
  ((ComponentTree.new (.frame .verticalSplit)).add_child_with_formatting 0
    (.comp exRender5 Formatting.default) Formatting.default).1

/-- Counterexample to claim C9 as stated: `add_child` does change the table
entry of an existing node — the parent's `children` entry goes from `[]` to
`[1]`. -/
theorem add_child_modifies_parent_children_entry :
    (ComponentTree.new (.frame .verticalSplit)).children[0]? = some [] ∧
    exTreeC9.children[0]? = some [1] ∧
    exTreeC9.children[0]? ≠ (ComponentTree.new (.frame .verticalSplit)).children[0]? := by
  refine ⟨rfl, by decide, by decide⟩

/-- Witness for `add_child_fresh_id_and_table_growth` at a concrete tree. -/
theorem add_child_fresh_id_and_table_growth_witness :
    (((ComponentTree.new (.frame .verticalSplit)).add_child_with_formatting 0
      (.comp exRender5 Formatting.default) Formatting.default).2 = .ok 1) ∧
    exTreeC9.children.length = 2 := by
  have hmain := add_child_fresh_id_and_table_growth
    (ComponentTree.new (.frame .verticalSplit)) 0 (.comp exRender5 Formatting.default)
    Formatting.default (by decide) exTreeC9
    (((ComponentTree.new (.frame .verticalSplit)).add_child_with_formatting 0
      (.comp exRender5 Formatting.default) Formatting.default).2) rfl
  refine ⟨hmain.1, ?_⟩
  have h := hmain.2.2.2.1
  rw [h]
  decide

/-! ### Claim C4 — `HorizontalSplit` width assignment -/

/-- `horizontal_pass1` as a function of the children's width measurements
alone; it coincides with the tree-level pass whenever no child uses
`Content` (the only case that consults the tree). -/
def horizontal_pass1_pure : List Measurement → Nat → Nat → Nat → List Nat × Nat × Nat
  | [], _, used_width, fill_count => ([], used_width, fill_count)
  | m :: rest, aw, used_width, fill_count =>
    match m with
    | .fill =>
      let r := horizontal_pass1_pure rest aw used_width (fill_count + 1)
      (0 :: r.1, r.2)
    | mm =>
      let w := calculate_size mm aw
      let r := horizontal_pass1_pure rest aw (satAdd16 used_width w) fill_count
      (w :: r.1, r.2)

/-- Passes 1–2 of the horizontal layout on the measurement list alone. -/
def horizontal_widths_pure (ms : List Measurement) (aw : Nat) : List Nat :=
  let p := horizontal_pass1_pure ms aw 0 0
  let fill_width := if 0 < p.2.2 then (aw - p.2.1) / (p.2.2 % U16_MOD) else 0
  (ms.zip p.1).map (fun mw => if mw.2 = 0 && mw.1 = .fill then fill_width else mw.2)

/-- The running `u16` saturating total of `min`-capped widths. -/
def satSumMin (aw used : Nat) (ks : List Nat) : Nat :=
  ks.foldl (fun u k => satAdd16 u (min k aw)) used

lemma satSumMin_nil (aw used : Nat) : satSumMin aw used [] = used := rfl

lemma satSumMin_cons (aw used k : Nat) (ks : List Nat) :
    satSumMin aw used (k :: ks) = satSumMin aw (satAdd16 used (min k aw)) ks := rfl

/-- Subtracting the saturating capped total from `aw` equals subtracting the
plain total: whenever they differ, both already exceed `aw`. -/
lemma sub_satSumMin (aw : Nat) (hW : aw ≤ 65535) :
    ∀ (ks : List Nat) (used extra : Nat),
      aw - (satSumMin aw used ks + extra) = aw - (used + ks.sum + extra) := by
  intro ks
  induction ks with
  | nil => intro used extra; simp [satSumMin_nil]
  | cons k rest ih =>
    intro used extra
    rw [satSumMin_cons, ih]
    unfold satAdd16 U16_MAX
    simp only [List.sum_cons]
    omega

/-- Without saturation the capped total is the plain sum. -/
lemma satSumMin_eq_sum (aw : Nat) :
    ∀ (ks : List Nat) (used : Nat), used + ks.sum ≤ 65535 → (∀ k ∈ ks, k ≤ aw) →
      satSumMin aw used ks = used + ks.sum := by
  intro ks
  induction ks with
  | nil => intro used _ _; simp [satSumMin_nil]
  | cons k rest ih =>
    intro used hb hk
    rw [satSumMin_cons]
    have hkw : min k aw = k := Nat.min_eq_left (hk k (by simp))
    have hsat : satAdd16 used (min k aw) = used + k := by
      unfold satAdd16 U16_MAX
      rw [hkw]
      simp at hb
      omega
    rw [hsat, ih (used + k) (by simp at hb ⊢; omega) (fun x hx => hk x (by simp [hx]))]
    simp
    omega

/-- `horizontal_pass1_pure` over `Cell` measurements only. -/
lemma pass1_pure_cells (aw : Nat) :
    ∀ (ks : List Nat) (used fill : Nat),
      horizontal_pass1_pure (ks.map .cell) aw used fill =
        (ks.map (fun k => min k aw), satSumMin aw used ks, fill) := by
  intro ks
  induction ks with
  | nil => intro used fill; simp [horizontal_pass1_pure, satSumMin_nil]
  | cons k rest ih =>
    intro used fill
    simp only [List.map_cons, horizontal_pass1_pure, calculate_size, satSumMin_cons,
      ih (satAdd16 used (min k aw)) fill]

/-- `horizontal_pass1_pure` over `Cell`s with a single interposed `Fill`. -/
lemma pass1_pure_shape (aw : Nat) (ks₁ ks₂ : List Nat) :
    ∀ (used fill : Nat),
      horizontal_pass1_pure (ks₁.map .cell ++ .fill :: ks₂.map .cell) aw used fill =
        (ks₁.map (fun k => min k aw) ++ 0 :: ks₂.map (fun k => min k aw),
          satSumMin aw (satSumMin aw used ks₁) ks₂, fill + 1) := by
  induction ks₁ with
  | nil =>
    intro used fill
    simp only [List.map_nil, List.nil_append, horizontal_pass1_pure,
      pass1_pure_cells aw ks₂ used (fill + 1), satSumMin_nil]
  | cons k rest ih =>
    intro used fill
    simp only [List.map_cons, List.cons_append, horizontal_pass1_pure, calculate_size,
      satSumMin_cons, List.append_eq, ih (satAdd16 used (min k aw)) fill]

/-- The tree-level first pass coincides with the measurement-level one when
no child sizes by `Content`. -/
lemma horizontal_pass1_eq_pure (fuel : Nat) (t : ComponentTree) (aw ah : Nat) :
    ∀ (ids : List Nat) (used fill : Nat),
      (∀ c ∈ ids, (t.fmtOf c).preferred_width ≠ .content) →
      horizontal_pass1 fuel t aw ah ids used fill =
        horizontal_pass1_pure
          (ids.map (fun c => (t.fmtOf c).preferred_width)) aw used fill := by
  intro ids
  induction ids with
  | nil => intro used fill _; rfl
  | cons c rest ih =>
    intro used fill hnc
    have hc := hnc c (by simp)
    have hrest : ∀ x ∈ rest, (t.fmtOf x).preferred_width ≠ .content :=
      fun x hx => hnc x (by simp [hx])
    rcases hm : (t.fmtOf c).preferred_width with k | p | _ | _
    · simp only [horizontal_pass1, hm, List.map_cons, horizontal_pass1_pure,
        ih (satAdd16 used (calculate_size (.cell k) aw)) fill hrest]
    · simp only [horizontal_pass1, hm, List.map_cons, horizontal_pass1_pure,
        ih (satAdd16 used (calculate_size (.percent p) aw)) fill hrest]
    · exact absurd hm hc
    · simp only [horizontal_pass1, hm, List.map_cons, horizontal_pass1_pure,
        ih used (fill + 1) hrest]

/-- The zip-map second pass only consults the measurement of each child. -/
lemma horizontal_pass2_eq_pure (t : ComponentTree) (fw : Nat) :
    ∀ (ids : List Nat) (ws : List Nat),
      (ids.zip ws).map (fun cw =>
          if cw.2 = 0 && (t.fmtOf cw.1).preferred_width = .fill then fw else cw.2) =
        ((ids.map (fun c => (t.fmtOf c).preferred_width)).zip ws).map (fun mw =>
          if mw.2 = 0 && mw.1 = .fill then fw else mw.2) := by
  intro ids
  induction ids with
  | nil => intro ws; rfl
  | cons c rest ih =>
    intro ws
    cases ws with
    | nil => rfl
    | cons w ws' =>
      simp only [List.zip_cons_cons, List.map_cons]
      rw [ih ws']

/-- The tree-level widths pass coincides with the measurement-level one when
no child sizes by `Content`. -/
lemma horizontal_widths_eq_pure (fuel : Nat) (t : ComponentTree)
    (ids : List Nat) (aw ah : Nat)
    (hnc : ∀ c ∈ ids, (t.fmtOf c).preferred_width ≠ .content) :
    horizontal_widths fuel t ids aw ah =
      horizontal_widths_pure (ids.map (fun c => (t.fmtOf c).preferred_width)) aw := by
  unfold horizontal_widths horizontal_widths_pure
  rw [horizontal_pass1_eq_pure fuel t aw ah ids 0 0 hnc]
  exact horizontal_pass2_eq_pure t _ ids _

/-- Claim C4 (amended): in a `HorizontalSplit` layout with exactly one
`Fill` child and all other children `Cell(kᵢ)`, the `Fill` child is
assigned width `W - Σkᵢ` floored at zero, and when `Σkᵢ ≤ W` the assigned
widths sum to exactly `W`; without that hypothesis each `Cell` child is
still assigned `min(kᵢ, W)` independently, so the sum can exceed `W`. -/
theorem horizontal_fill_width_and_sum (fuel : Nat) (t : ComponentTree)
    (ids₁ ids₂ : List Nat) (j : Nat) (ks₁ ks₂ : List Nat) (aw ah : Nat)
    (hW : aw ≤ 65535)
    (hlen : ids₁.length = ks₁.length)
    (hproj : (ids₁ ++ j :: ids₂).map (fun c => (t.fmtOf c).preferred_width) =
      ks₁.map .cell ++ .fill :: ks₂.map .cell) :
    (horizontal_widths fuel t (ids₁ ++ j :: ids₂) aw ah)[ids₁.length]? =
      some (aw - (ks₁.sum + ks₂.sum)) ∧
    (ks₁.sum + ks₂.sum ≤ aw →
      (horizontal_widths fuel t (ids₁ ++ j :: ids₂) aw ah).sum = aw) := by
  have hnc : ∀ c ∈ ids₁ ++ j :: ids₂, (t.fmtOf c).preferred_width ≠ .content := by
    intro c hc hcon
    have : Measurement.content ∈ (ids₁ ++ j :: ids₂).map
        (fun c => (t.fmtOf c).preferred_width) := by
      rw [List.mem_map]
      exact ⟨c, hc, hcon⟩
    rw [hproj] at this
    simp at this
  rw [horizontal_widths_eq_pure fuel t _ aw ah hnc, hproj]
  unfold horizontal_widths_pure
  rw [pass1_pure_shape aw ks₁ ks₂ 0 0]
  simp only []
  have hfw : (if 0 < 0 + 1 then
      (aw - satSumMin aw (satSumMin aw 0 ks₁) ks₂) / ((0 + 1) % U16_MOD) else 0) =
      aw - (ks₁.sum + ks₂.sum) := by
    rw [if_pos (by omega)]
    have h1 : aw - (satSumMin aw (satSumMin aw 0 ks₁) ks₂ + 0) =
        aw - (satSumMin aw 0 ks₁ + ks₂.sum + 0) := sub_satSumMin aw hW ks₂ _ 0
    have h2 : aw - (satSumMin aw 0 ks₁ + ks₂.sum) =
        aw - (0 + ks₁.sum + ks₂.sum) := sub_satSumMin aw hW ks₁ 0 ks₂.sum
    have : ((0 + 1) % U16_MOD) = 1 := by norm_num [U16_MOD]
    rw [this, Nat.div_one]
    omega
  rw [hfw]
  have hzip : ((ks₁.map Measurement.cell ++ .fill :: ks₂.map Measurement.cell).zip
        (ks₁.map (fun k => min k aw) ++ 0 :: ks₂.map (fun k => min k aw))) =
      (ks₁.map Measurement.cell).zip (ks₁.map (fun k => min k aw)) ++
        (Measurement.fill, 0) ::
        ((ks₂.map Measurement.cell).zip (ks₂.map (fun k => min k aw))) := by
    rw [List.zip_append (by simp)]
    simp
  rw [hzip]
  simp only [List.map_append, List.map_cons]
  have hcells : ∀ ks : List Nat,
      ((ks.map Measurement.cell).zip (ks.map (fun k => min k aw))).map (fun mw =>
        if mw.2 = 0 && mw.1 = .fill then aw - (ks₁.sum + ks₂.sum) else mw.2) =
      ks.map (fun k => min k aw) := by
    intro ks
    induction ks with
    | nil => rfl
    | cons k rest ihk =>
      simp only [List.map_cons, List.zip_cons_cons]
      rw [ihk]
      simp
  rw [hcells ks₁, hcells ks₂]
  have hhead : (if (decide True && decide True) = true then aw - (ks₁.sum + ks₂.sum)
      else 0) = aw - (ks₁.sum + ks₂.sum) := by simp
  rw [hhead]
  constructor
  · rw [List.getElem?_append]
    simp [hlen]
  · intro hsum
    have hall : ∀ k ∈ ks₁ ++ ks₂, k ≤ aw := by
      intro k hk
      rcases List.mem_append.mp hk with hk | hk
      · have := List.single_le_sum (fun x _ => Nat.zero_le x) k hk
        omega
      · have := List.single_le_sum (fun x _ => Nat.zero_le x) k hk
        omega
    have hmin : ∀ ks : List Nat, (∀ k ∈ ks, k ≤ aw) →
        ks.map (fun k => min k aw) = ks := by
      intro ks hks
      induction ks with
      | nil => rfl
      | cons k rest ihk =>
        simp only [List.map_cons, Nat.min_eq_left (hks k (by simp)),
          ihk (fun x hx => hks x (by simp [hx]))]
    rw [hmin ks₁ (fun k hk => hall k (by simp [hk])),
      hmin ks₂ (fun k hk => hall k (by simp [hk]))]
    simp only [List.sum_append, List.sum_cons]
    omega

/-- Formatting of a width-`Cell(k)` child. -/
def exCellFmt (k : Nat) : Formatting := { Formatting.default with preferred_width := .cell k }

/-- Formatting of a width-`Fill` child. -/
def exFillWFmt : Formatting := { Formatting.default with preferred_width := .fill }

/-- A root with three children of widths `Cell(3)`, `Cell(3)`, `Fill`. -/
def exTreeC4 : ComponentTree :=
  ((((ComponentTree.new (.frame .horizontalSplit)).add_child_with_formatting 0
      (.comp exRender5 Formatting.default) (exCellFmt 3)).1.add_child_with_formatting 0
      (.comp exRender5 Formatting.default) (exCellFmt 3)).1.add_child_with_formatting 0
      (.comp exRender5 Formatting.default) exFillWFmt).1

/-- Counterexample to claim C4 as stated: with available width 4 and
children `Cell(3)`, `Cell(3)`, `Fill`, the layout assigns widths
`[3, 3, 0]`, whose sum 6 exceeds the available width 4. -/
theorem horizontal_widths_sum_exceeds_available :
    horizontal_widths 2 exTreeC4 [1, 2, 3] 4 4 = [3, 3, 0] ∧
    ¬ (horizontal_widths 2 exTreeC4 [1, 2, 3] 4 4).sum ≤ 4 := by
  refine ⟨by decide, by decide⟩

/-- Witness for `horizontal_fill_width_and_sum`: the same children laid out
in width 10 give the `Fill` child `10 - 6 = 4` and the widths sum to 10. -/
theorem horizontal_fill_width_and_sum_witness :
    (horizontal_widths 2 exTreeC4 [1, 2, 3] 10 10)[2]? = some 4 ∧
    (horizontal_widths 2 exTreeC4 [1, 2, 3] 10 10).sum = 10 := by
  have hmain := horizontal_fill_width_and_sum 2 exTreeC4 [1, 2] [] 3 [3, 3] [] 10 10
    (by norm_num) (by decide) (by decide)
  exact ⟨hmain.1, hmain.2 (by norm_num)⟩

/-! ### Claim C3 — compositor write bounds -/

lemma padRow_mem (sx sy x0 w row : Nat) :
    ∀ p ∈ padRow sx sy x0 w row, sx ≤ p.x ∧ p.x < sx + w ∧ p.y = sy + row := by
  intro p hp
  unfold padRow at hp
  simp only [List.mem_map, List.mem_range] at hp
  obtain ⟨i, hi, rfl⟩ := hp
  refine ⟨by simp, by simp; omega, rfl⟩

lemma clearRows_mem (sx sy w from_row upto : Nat) :
    ∀ p ∈ clearRows sx sy w from_row upto,
      sx ≤ p.x ∧ p.x < sx + w ∧ sy + from_row ≤ p.y ∧ p.y < sy + upto := by
  intro p hp
  unfold clearRows at hp
  simp only [List.mem_flatMap, List.mem_range] at hp
  obtain ⟨j, hj, hp⟩ := hp
  obtain ⟨h1, h2, h3⟩ := padRow_mem sx sy 0 w (from_row + j) p hp
  refine ⟨h1, by omega, by omega, by omega⟩

lemma composite_hide_go_bounds (w sx sy skip m : Nat) :
    ∀ (cmds : List TerminalCommand) (x screen_y skipped : Nat), screen_y ≤ m →
      (∀ p ∈ (composite_hide_go w sx sy skip m cmds x screen_y skipped).1,
        sx ≤ p.x ∧ p.x < sx + w ∧ sy ≤ p.y ∧ p.y < sy + m) ∧
      (composite_hide_go w sx sy skip m cmds x screen_y skipped).2.2 ≤ m := by
  intro cmds
  induction cmds with
  | nil => intro x screen_y skipped hsy; exact ⟨by simp [composite_hide_go], hsy⟩
  | cons cmd rest ih =>
    intro x screen_y skipped hsy
    simp only [composite_hide_go]
    by_cases hskip : skipped < skip
    · rw [if_pos hskip]
      cases cmd with
      | newline => exact ih 0 screen_y (skipped + 1) hsy
      | print ch =>
        simp only []
        by_cases hx : w ≤ x + 1
        · rw [if_pos hx]; exact ih 0 screen_y (skipped + 1) hsy
        · rw [if_neg hx]; exact ih (x + 1) screen_y skipped hsy
      | setForeground color => exact ih x screen_y skipped hsy
      | setBackground color => exact ih x screen_y skipped hsy
      | clearCmd => exact ih x screen_y skipped hsy
    · rw [if_neg hskip]
      by_cases hm : m ≤ screen_y
      · rw [if_pos hm]; exact ⟨by simp, hsy⟩
      · rw [if_neg hm]
        cases cmd with
        | print ch =>
          simp only []
          by_cases hx : w ≤ x
          · rw [if_pos hx]; exact ih x screen_y skipped hsy
          · rw [if_neg hx]
            obtain ⟨ihm, ihs⟩ := ih (x + 1) screen_y skipped hsy
            refine ⟨?_, ihs⟩
            intro p hp
            rcases List.mem_cons.mp hp with rfl | hp
            · refine ⟨by simp, by simp; omega, by simp, by simp; omega⟩
            · exact ihm p hp
        | newline =>
          simp only []
          obtain ⟨ihm, ihs⟩ := ih 0 (screen_y + 1) skipped (by omega)
          refine ⟨?_, ihs⟩
          intro p hp
          rcases List.mem_append.mp hp with hp | hp
          · obtain ⟨h1, h2, h3⟩ := padRow_mem sx sy x w screen_y p hp
            refine ⟨h1, h2, by omega, by omega⟩
          · exact ihm p hp
        | setForeground color => exact ih x screen_y skipped hsy
        | setBackground color => exact ih x screen_y skipped hsy
        | clearCmd => exact ih x screen_y skipped hsy

lemma composite_wrap_go_bounds (w sx sy skip m : Nat) (hw : 0 < w) :
    ∀ (cmds : List TerminalCommand) (x screen_y skipped : Nat), screen_y ≤ m →
      (∀ p ∈ (composite_wrap_go w sx sy skip m cmds x screen_y skipped).1,
        sx ≤ p.x ∧ p.x < sx + w ∧ sy ≤ p.y ∧ p.y < sy + m) ∧
      (composite_wrap_go w sx sy skip m cmds x screen_y skipped).2.2 ≤ m := by
  intro cmds
  induction cmds with
  | nil => intro x screen_y skipped hsy; exact ⟨by simp [composite_wrap_go], hsy⟩
  | cons cmd rest ih =>
    intro x screen_y skipped hsy
    simp only [composite_wrap_go]
    by_cases hskip : skipped < skip
    · rw [if_pos hskip]
      cases cmd with
      | newline => exact ih 0 screen_y (skipped + 1) hsy
      | print ch =>
        simp only []
        by_cases hx : w ≤ x + 1
        · rw [if_pos hx]; exact ih 0 screen_y (skipped + 1) hsy
        · rw [if_neg hx]; exact ih (x + 1) screen_y skipped hsy
      | setForeground color => exact ih x screen_y skipped hsy
      | setBackground color => exact ih x screen_y skipped hsy
      | clearCmd => exact ih x screen_y skipped hsy
    · rw [if_neg hskip]
      by_cases hm : m ≤ screen_y
      · rw [if_pos hm]; exact ⟨by simp, hsy⟩
      · rw [if_neg hm]
        cases cmd with
        | print ch =>
          simp only []
          by_cases hx : w ≤ x
          · rw [if_pos hx]
            by_cases hm2 : m ≤ screen_y + 1
            · rw [if_pos hm2]
              exact ⟨by simp, by simp; omega⟩
            · rw [if_neg hm2]
              obtain ⟨ihm, ihs⟩ := ih 1 (screen_y + 1) skipped (by omega)
              refine ⟨?_, ihs⟩
              intro p hp
              rcases List.mem_cons.mp hp with rfl | hp
              · refine ⟨by simp, by simp; omega, by simp, by simp; omega⟩
              · exact ihm p hp
          · rw [if_neg hx]
            obtain ⟨ihm, ihs⟩ := ih (x + 1) screen_y skipped hsy
            refine ⟨?_, ihs⟩
            intro p hp
            rcases List.mem_cons.mp hp with rfl | hp
            · refine ⟨by simp, by simp; omega, by simp, by simp; omega⟩
            · exact ihm p hp
        | newline =>
          simp only []
          obtain ⟨ihm, ihs⟩ := ih 0 (screen_y + 1) skipped (by omega)
          refine ⟨?_, ihs⟩
          intro p hp
          rcases List.mem_append.mp hp with hp | hp
          · obtain ⟨h1, h2, h3⟩ := padRow_mem sx sy x w screen_y p hp
            refine ⟨h1, h2, by omega, by omega⟩
          · exact ihm p hp
        | setForeground color => exact ih x screen_y skipped hsy
        | setBackground color => exact ih x screen_y skipped hsy
        | clearCmd => exact ih x screen_y skipped hsy

/-- Claim C3 (amended): every cell either compositor writes lies in columns
`[x, x+w)` and rows `[y, y+m]` — all rows are inside the `m`-row budget
except that the final row padding can touch the single row `y + m`, one
past the budget (for Wrap the buffer must be at least one column wide: at
width 0 the mid-row wrap prints every overflowed character in column `x`
itself); full coverage of the `w × m` rectangle is NOT guaranteed (see the
counterexample: a Hide composite of a style-only buffer writes nothing at
all). -/
theorem composite_writes_within_bounds (w : Nat) (cmds : List TerminalCommand)
    (sx sy skip m : Nat) :
    (∀ p ∈ composite_buffer_hide w cmds sx sy skip m,
      sx ≤ p.x ∧ p.x < sx + w ∧ sy ≤ p.y ∧ p.y ≤ sy + m) ∧
    (0 < w → ∀ p ∈ composite_buffer_wrap w cmds sx sy skip m,
      sx ≤ p.x ∧ p.x < sx + w ∧ sy ≤ p.y ∧ p.y ≤ sy + m) := by
  constructor
  · intro p hp
    unfold composite_buffer_hide at hp
    obtain ⟨hgo, hfin⟩ := composite_hide_go_bounds w sx sy skip m cmds 0 0 0 (by omega)
    rcases List.mem_append.mp hp with hp | hp
    · rcases List.mem_append.mp hp with hp | hp
      · obtain ⟨h1, h2, h3, h4⟩ := hgo p hp
        exact ⟨h1, h2, h3, by omega⟩
      · split at hp
        · obtain ⟨h1, h2, h3⟩ := padRow_mem sx sy _ w _ p hp
          exact ⟨h1, h2, by omega, by omega⟩
        · simp at hp
    · obtain ⟨h1, h2, h3, h4⟩ := clearRows_mem sx sy w _ m p hp
      exact ⟨h1, h2, by omega, by omega⟩
  · intro hw p hp
    unfold composite_buffer_wrap at hp
    obtain ⟨hgo, hfin⟩ := composite_wrap_go_bounds w sx sy skip m hw cmds 0 0 0 (by omega)
    rcases List.mem_append.mp hp with hp | hp
    · rcases List.mem_append.mp hp with hp | hp
      · obtain ⟨h1, h2, h3, h4⟩ := hgo p hp
        exact ⟨h1, h2, h3, by omega⟩
      · obtain ⟨h1, h2, h3⟩ := padRow_mem sx sy _ w _ p hp
        exact ⟨h1, h2, by omega, by omega⟩
    · obtain ⟨h1, h2, h3, h4⟩ := clearRows_mem sx sy w _ m p hp
      exact ⟨h1, h2, by omega, by omega⟩

/-- Witness for `composite_writes_within_bounds` at a concrete call: every
write of a Hide composite of `"ab"` into a 2×1 rect at origin `(5, 7)` with
budget 1 stays within the claimed bounds. -/
theorem composite_writes_within_bounds_witness :
    CellWrite.mk 5 7 'a' ∈
      composite_buffer_hide 2 [.print 'a', .print 'b'] 5 7 0 1 ∧
    (5 ≤ (CellWrite.mk 5 7 'a').x ∧ (CellWrite.mk 5 7 'a').x < 5 + 2 ∧
      7 ≤ (CellWrite.mk 5 7 'a').y ∧ (CellWrite.mk 5 7 'a').y ≤ 7 + 1) := by
  refine ⟨by decide, ?_⟩
  exact (composite_writes_within_bounds 2 [.print 'a', .print 'b'] 5 7 0 1).1
    (CellWrite.mk 5 7 'a') (by decide)

/-- Counterexample to claim C3 as stated: a Hide composite whose buffer
holds only a style command writes no cell at all — the 1×1 rectangle at the
origin is left untouched — and a Wrap composite of a single row-break with
budget 1 pads the row `y + 1`, one past its 1-row budget. -/
theorem compositor_coverage_counterexample :
    composite_buffer_hide 1 [.setForeground 3] 0 0 0 1 = [] ∧
    CellWrite.mk 0 1 ' ' ∈ composite_buffer_wrap 1 [.newline] 0 0 0 1 := by
  refine ⟨by decide, by decide⟩

/-! ### Claim C6 — `move_cursor` commit condition -/

/-- Modelled from the spec's words for claim C6, for comparison with the
code: the commit condition as the claim states it — the delta applied in
plain integer arithmetic must land in `[0, width-1] × [0, height-1]` of the
logical bounds, "with width pinned to 0 for `Overflow::Wrap` nodes". -/
def specMoveCursorCommit (fuel : Nat) (t : ComponentTree) (self_id : Nat)
    (col_delta row_delta : Int) : Prop :=
  let current_id := (t.focus_path.getLast?).getD self_id
  let lb := measure_logical_bounds fuel t current_id
  let width : Int := if (t.fmtOf current_id).overflow_x = .wrap then 0 else lb.1
  let height : Int := lb.2
  let tentative_col : Int := (t.cursorColOf current_id : Int) + col_delta
  let tentative_row : Int := (t.cursorRowOf current_id : Int) + row_delta
  0 ≤ tentative_col ∧ tentative_col ≤ width - 1 ∧
    0 ≤ tentative_row ∧ tentative_row ≤ height - 1

instance (fuel : Nat) (t : ComponentTree) (self_id : Nat) (cd rd : Int) :
    Decidable (specMoveCursorCommit fuel t self_id cd rd) := by
  unfold specMoveCursorCommit
  infer_instance

/-- Claim C6 (amended): the tentative position is computed with `u16`
saturating arithmetic; whenever no saturation blocked the requested
direction and the result stays within `[0, width-1] × [0, height-1]` of the
logical bounds — with the ROW bound pinned to 0 (single logical row) for
`overflow_x = Wrap` nodes, while the column bound spans the full logical
width — `move_cursor` commits the move in-node: it stores the tentative
cursor and marks the node dirty, leaving focus and focus path unchanged
(no boundary handling runs). -/
theorem move_cursor_commit_in_node (fuel : Nat) (t : ComponentTree) (self_id : Nat)
    (col_delta row_delta : Int) (current_id new_col new_row : Nat)
    (hcur : current_id = (t.focus_path.getLast?).getD self_id)
    (hnc : new_col = satAddDelta (t.cursorColOf current_id) col_delta)
    (hnr : new_row = satAddDelta (t.cursorRowOf current_id) row_delta)
    (hnb : ¬ ((row_delta < 0 ∧ new_row = t.cursorRowOf current_id) ∨
      (row_delta > 0 ∧ new_row = t.cursorRowOf current_id) ∨
      (col_delta < 0 ∧ new_col = t.cursorColOf current_id) ∨
      (col_delta > 0 ∧ new_col = t.cursorColOf current_id)))
    (hcol : new_col ≤ (measure_logical_bounds fuel t current_id).1 - 1)
    (hrow : new_row ≤ (if (t.fmtOf current_id).overflow_x = .wrap then 0
      else (measure_logical_bounds fuel t current_id).2 - 1)) :
    move_cursor fuel t self_id col_delta row_delta =
      ({ t with
          cursor_col := t.cursor_col.set current_id new_col
          cursor_row := t.cursor_row.set current_id new_row }).mark_dirty current_id ∧
    (move_cursor fuel t self_id col_delta row_delta).focus = t.focus ∧
    (move_cursor fuel t self_id col_delta row_delta).focus_path = t.focus_path ∧
    current_id ∈ (move_cursor fuel t self_id col_delta row_delta).dirty := by
  subst hcur hnc hnr
  have hmain : move_cursor fuel t self_id col_delta row_delta =
      ({ t with
        cursor_col := t.cursor_col.set ((t.focus_path.getLast?).getD self_id)
          (satAddDelta (t.cursorColOf ((t.focus_path.getLast?).getD self_id)) col_delta)
        cursor_row := t.cursor_row.set ((t.focus_path.getLast?).getD self_id)
          (satAddDelta (t.cursorRowOf ((t.focus_path.getLast?).getD self_id)) row_delta)
        }).mark_dirty ((t.focus_path.getLast?).getD self_id) := by
    by_cases hov : (t.fmtOf ((t.focus_path.getLast?).getD self_id)).overflow_x = .wrap
    · rw [if_pos hov] at hrow
      simp only [move_cursor, if_pos hov]
      split
      · rfl
      · rename_i hcond
        exfalso
        simp at hcond
        omega
    · rw [if_neg hov] at hrow
      simp only [move_cursor, if_neg hov]
      split
      · rfl
      · rename_i hcond
        exfalso
        simp at hcond
        omega
  refine ⟨hmain, ?_, ?_, ?_⟩ <;> rw [hmain]
  · simp
  · simp
  · exact mem_mark_dirty _ _

/-- Formatting of a focusable leaf whose horizontal overflow wraps. -/
def exWrapFmt : Formatting := { Formatting.default with overflow_x := .wrap }

/-- A root frame with one wrap-overflow 5-character leaf, focused (as
`set_focus_with_descent` leaves it: focus 1, focus path `[0, 1]`). -/
def exTreeC6 : ComponentTree :=
  set_focus_with_descent 4
    (((ComponentTree.new (.frame .verticalSplit)).add_child_with_formatting 0
      (.comp exRender5 Formatting.default) exWrapFmt).1) 1

/-- Counterexample to claim C6 as stated: on the wrap-overflow leaf with
logical bounds 5×1 and cursor (0,0), moving right by one falls outside the
claim's "[0, width-1] with width pinned to 0" window, so the claim says no
in-node commit happens — but the code commits the move (cursor column
becomes 1 and the node is marked dirty): the code pins the row, not the
width. -/
theorem move_cursor_commit_spec_counterexample :
    ¬ specMoveCursorCommit 4 exTreeC6 1 1 0 ∧
    (move_cursor 4 exTreeC6 1 1 0).cursor_col[1]? = some 1 ∧
    (move_cursor 4 exTreeC6 1 1 0).cursor_row[1]? = some 0 ∧
    1 ∈ (move_cursor 4 exTreeC6 1 1 0).dirty := by
  refine ⟨by decide, by decide, by decide, by decide⟩

/-- Witness for `move_cursor_commit_in_node` at the concrete wrap leaf. -/
theorem move_cursor_commit_in_node_witness :
    (move_cursor 4 exTreeC6 1 1 0).focus = exTreeC6.focus ∧
    (move_cursor 4 exTreeC6 1 1 0).focus_path = exTreeC6.focus_path ∧
    1 ∈ (move_cursor 4 exTreeC6 1 1 0).dirty := by
  have hmain := move_cursor_commit_in_node 4 exTreeC6 1 1 0 1 1 0 (by decide) (by decide)
    (by decide) (by decide) (by decide) (by decide)
  exact ⟨hmain.2.1, hmain.2.2.1, hmain.2.2.2⟩

/-! ### Claim C2 — what a second render composites -/

/-- The node a composite event belongs to, if any. -/
def compositeNode? : RenderEvent → Option Nat
  | .composite node _ _ _ _ _ _ => some node
  | .fill _ _ _ _ => none

lemma render_component_phase_children (t : ComponentTree) (id : Nat) (rect : Rect)
    (fmt : Formatting) (sx fsy ctc ctr : Nat) :
    (render_component_phase t id rect fmt sx fsy ctc ctr).1.children = t.children := by
  unfold render_component_phase
  split
  · rfl
  · dsimp only
    split <;> split <;> rfl

/-- The only composite a node's own phase can emit is its own, and only
when the node is already dirty. -/
lemma render_component_phase_events (t : ComponentTree) (id : Nat) (rect : Rect)
    (fmt : Formatting) (sx fsy ctc ctr : Nat) :
    ∀ e ∈ (render_component_phase t id rect fmt sx fsy ctc ctr).2, ∀ n,
      compositeNode? e = some n → n = id ∧ id ∈ t.dirty := by
  intro e he n hn
  unfold render_component_phase at he
  split at he
  · simp at he
  · dsimp only at he
    split at he
    · rename_i hdirty
      simp at he
      subst he
      simp [compositeNode?] at hn
      subst hn
      simp only [Bool.and_eq_true] at hdirty
      refine ⟨rfl, ?_⟩
      have := hdirty.1
      simpa [ComponentTree.is_dirty] using this
    · simp at he

lemma mark_visible_children_children :
    ∀ (cs : List Nat) (t : ComponentTree) (idx psy cy pb : Nat),
      (mark_visible_children t cs idx psy cy pb).children = t.children := by
  intro cs
  induction cs with
  | nil => intro t idx psy cy pb; rfl
  | cons c rest ih =>
    intro t idx psy cy pb
    unfold mark_visible_children
    split
    · exact ih t (idx + 1) psy cy pb
    · split
      · exact ih t (idx + 1) psy cy pb
      · split
        · rfl
        · rw [ih (t.mark_dirty c) (idx + 1) psy _ pb]
          simp

lemma foldl_mark_dirty_children :
    ∀ (cs : List Nat) (t : ComponentTree),
      (cs.foldl ComponentTree.mark_dirty t).children = t.children := by
  intro cs
  induction cs with
  | nil => intro t; rfl
  | cons c rest ih =>
    intro t
    rw [List.foldl_cons, ih (t.mark_dirty c)]
    simp

lemma copy_cursor_children (t : ComponentTree) (a b : Nat) :
    (copy_cursor t a b).children = t.children := by
  unfold copy_cursor
  split <;> rfl

lemma focus_clamp_step_children (fuel : Nat) (t : ComponentTree) (id : Nat)
    (cs : List Nat) (psy ph : Nat) :
    (focus_clamp_step fuel t id cs psy ph).children = t.children := by
  unfold focus_clamp_step
  dsimp only
  split
  · rfl
  · split
    · rfl
    · split
      · split
        · simp [ComponentTree.update_focus_path, copy_cursor_children]
        · rfl
      · split
        · split
          · simp [ComponentTree.update_focus_path, copy_cursor_children]
          · rfl
        · rfl

lemma scroll_limit_step_children (t : ComponentTree) (id : Nat) (cs : List Nat)
    (psy : Nat) (ov : Overflow) :
    (scroll_limit_step t id cs psy ov).children = t.children := by
  unfold scroll_limit_step
  dsimp only
  split
  · split <;> rfl
  · rfl

lemma set_rect_y_children (t : ComponentTree) (c v : Nat) :
    (set_rect_y t c v).children = t.children := by
  unfold set_rect_y
  split <;> rfl

lemma set_rect_xy_children (t : ComponentTree) (c vx vy : Nat) :
    (set_rect_xy t c vx vy).children = t.children := by
  unfold set_rect_xy
  split <;> rfl

/-- The tree `render_node` hands to its child loop (marking, focus clamp and
scroll clamp applied) keeps the `children` table of the phase-output tree. -/
lemma mid_tree_children (fuel : Nat) (t₀ : ComponentTree) (id : Nat)
    (cvec : List Nat) (psy ph py pb : Nat) (c : Prop) [Decidable c] (ov : Overflow) :
    (scroll_limit_step
      (if c then
        focus_clamp_step fuel
          (if c then mark_visible_children t₀ cvec 0 psy py pb
           else cvec.foldl ComponentTree.mark_dirty t₀) id cvec psy ph
       else
        (if c then mark_visible_children t₀ cvec 0 psy py pb
         else cvec.foldl ComponentTree.mark_dirty t₀))
      id cvec psy ov).children = t₀.children := by
  rw [scroll_limit_step_children]
  split
  · rw [focus_clamp_step_children, mark_visible_children_children]
  · rw [foldl_mark_dirty_children]

lemma render_children_children
    (recur : ComponentTree → Nat → ComponentTree × List RenderEvent)
    (hpres : ∀ t c, (recur t c).1.children = t.children) :
    ∀ (cs : List Nat) (t : ComponentTree) (idx : Nat) (vert : Bool)
      (fsy : Nat) (prect : Rect) (csy : Nat) (lowest : Option Nat),
      (render_children recur t cs idx vert fsy prect csy lowest).1.children =
        t.children := by
  intro cs
  induction cs with
  | nil => intro t idx vert fsy prect csy lowest; rfl
  | cons c rest ih =>
    intro t idx vert fsy prect csy lowest
    unfold render_children
    split
    · exact ih t (idx + 1) vert fsy prect csy lowest
    · split
      · exact ih t (idx + 1) vert fsy prect csy lowest
      · dsimp only
        split
        · rfl
        · split
          · rfl
          · split
            · rw [ih, set_rect_y_children, hpres, set_rect_y_children]
            · rw [ih, set_rect_xy_children, hpres, set_rect_xy_children]

lemma render_node_children :
    ∀ (fuel : Nat) (t : ComponentTree) (id : Nat),
      (render_node fuel t id).1.children = t.children := by
  intro fuel
  induction fuel with
  | zero => intro t id; rfl
  | succ fuel ih =>
    intro t id
    simp only [render_node]
    split
    · rw [render_component_phase_children]
    · rw [render_children_children (render_node fuel) ih, mid_tree_children,
        render_component_phase_children]

/-- Every composite a children-rendering loop emits belongs to one of the
children in the list, or originates deeper down in a `children` table entry
of the (children-invariant) tree it was handed. -/
lemma render_children_events
    (recur : ComponentTree → Nat → ComponentTree × List RenderEvent)
    (hpres : ∀ t c, (recur t c).1.children = t.children)
    (hev : ∀ (t : ComponentTree) (c : Nat), ∀ e ∈ (recur t c).2, ∀ n,
      compositeNode? e = some n → n = c ∨ ∃ l ∈ t.children, n ∈ l) :
    ∀ (cs : List Nat) (t : ComponentTree) (idx : Nat) (vert : Bool)
      (fsy : Nat) (prect : Rect) (csy : Nat) (lowest : Option Nat),
      ∀ e ∈ (render_children recur t cs idx vert fsy prect csy lowest).2.1, ∀ n,
        compositeNode? e = some n → n ∈ cs ∨ ∃ l ∈ t.children, n ∈ l := by
  intro cs
  induction cs with
  | nil =>
    intro t idx vert fsy prect csy lowest e he
    simp [render_children] at he
  | cons c rest ih =>
    intro t idx vert fsy prect csy lowest e he n hn
    unfold render_children at he
    split at he
    · rcases ih t (idx + 1) vert fsy prect csy lowest e he n hn with h | h
      · exact Or.inl (List.mem_cons_of_mem _ h)
      · exact Or.inr h
    · split at he
      · rcases ih t (idx + 1) vert fsy prect csy lowest e he n hn with h | h
        · exact Or.inl (List.mem_cons_of_mem _ h)
        · exact Or.inr h
      · dsimp only at he
        split at he
        · simp at he
        · split at he
          · simp at he
          · split at he
            · rcases List.mem_append.mp he with he | he
              · rcases hev _ c e he n hn with h | h
                · exact Or.inl (h ▸ List.mem_cons_self c rest)
                · rw [set_rect_y_children] at h
                  exact Or.inr h
              · rcases ih _ (idx + 1) vert fsy prect _ _ e he n hn with h | h
                · exact Or.inl (List.mem_cons_of_mem _ h)
                · rw [set_rect_y_children, hpres, set_rect_y_children] at h
                  exact Or.inr h
            · rcases List.mem_append.mp he with he | he
              · rcases hev _ c e he n hn with h | h
                · exact Or.inl (h ▸ List.mem_cons_self c rest)
                · rw [set_rect_xy_children] at h
                  exact Or.inr h
              · rcases ih _ (idx + 1) vert fsy prect _ _ e he n hn with h | h
                · exact Or.inl (List.mem_cons_of_mem _ h)
                · rw [set_rect_xy_children, hpres, set_rect_xy_children] at h
                  exact Or.inr h

/-- Every composite `render_node` emits is either the visited node's own
(requiring the node to be dirty on entry) or belongs to some entry of the
`children` table. -/
lemma render_node_events :
    ∀ (fuel : Nat) (t : ComponentTree) (id : Nat),
      ∀ e ∈ (render_node fuel t id).2, ∀ n, compositeNode? e = some n →
        (n = id ∧ id ∈ t.dirty) ∨ ∃ l ∈ t.children, n ∈ l := by
  intro fuel
  induction fuel with
  | zero =>
    intro t id e he
    simp [render_node] at he
  | succ fuel ih =>
    intro t id e he n hn
    simp only [render_node] at he
    split at he
    · dsimp only at he
      rcases render_component_phase_events _ id _ _ _ _ _ _ e he n hn with ⟨h1, h2⟩
      exact Or.inl ⟨h1, h2⟩
    · rename_i child_ids_vec hcv
      dsimp only at he
      rcases List.mem_append.mp he with he | he
      · rcases List.mem_append.mp he with he | he
        · rcases render_component_phase_events _ id _ _ _ _ _ _ e he n hn with ⟨h1, h2⟩
          exact Or.inl ⟨h1, h2⟩
        · have hweak : ∀ (t' : ComponentTree) (c : Nat),
              ∀ e' ∈ (render_node fuel t' c).2, ∀ m, compositeNode? e' = some m →
                m = c ∨ ∃ l ∈ t'.children, m ∈ l := by
            intro t' c e' he' m hm
            rcases ih t' c e' he' m hm with ⟨h1, _⟩ | h
            · exact Or.inl h1
            · exact Or.inr h
          rcases render_children_events (render_node fuel)
              (fun t' c => render_node_children fuel t' c) hweak
              child_ids_vec _ 0 _ _ _ _ _ e he n hn with h | h
          · refine Or.inr ⟨child_ids_vec, ?_, h⟩
            simp only [ComponentTree.childrenOf, render_component_phase_children] at hcv
            exact List.getElem?_mem hcv
          · rw [mid_tree_children, render_component_phase_children] at h
            exact Or.inr h
      · split at he
        · split at he
          · simp at he
            subst he
            simp [compositeNode?] at hn
          · simp at he
        · simp at he

/-- Claim C2: with an empty dirty set and a root that is nobody's child, a
render pass emits no composite for the root node.  (The spec's stronger
claim — no compositing at all — fails: `render_node` re-marks visible
children dirty on every traversal, see the counterexample.) -/
theorem render_unchanged_skips_root_composite (fuel : Nat) (t : ComponentTree)
    (hdirty : t.dirty = []) (hroot : ∀ l ∈ t.children, t.root ∉ l) :
    ∀ e ∈ (render fuel t).2, compositeNode? e ≠ some t.root := by
  intro e he hn
  unfold render at he
  dsimp only at he
  rcases render_node_events fuel t t.root e he t.root hn with ⟨_, h2⟩ | ⟨l, hl, hml⟩
  · rw [hdirty] at h2
    simp at h2
  · exact hroot l hl hml

/-- Formatting of a one-row-high leaf. -/
def exFmtC2 : Formatting := { Formatting.default with preferred_height := .cell 1 }

/-- A laid-out two-node tree: a vertical root frame with one leaf child that
prints five characters into a 4×2 viewport. -/
def exTreeC2 : ComponentTree :=
  layout 3 (((ComponentTree.new (.frame .verticalSplit)).add_child_with_formatting 0
    (.comp exRender5 Formatting.default) exFmtC2).1) 4 2

/-- The same tree after one full render pass (dirty set cleared). -/
def exTreeC2' : ComponentTree := (render 3 exTreeC2).1

/-- A second render of the untouched tree still composites the child leaf:
`render_node` re-marks visible children dirty on every traversal, so only
the root is exempt from re-compositing. -/
theorem second_render_recomposites_child :
    exTreeC2'.dirty = [] ∧
      RenderEvent.composite 1 false (List.replicate 5 (TerminalCommand.print 'a'))
        0 0 0 1 ∈ (render 3 exTreeC2').2 := by
  constructor
  · decide
  · decide

theorem render_unchanged_skips_root_composite_witness :
    exTreeC2'.dirty = [] ∧ (∀ l ∈ exTreeC2'.children, exTreeC2'.root ∉ l) ∧
      compositeNode? (RenderEvent.composite 1 false
          (List.replicate 5 (TerminalCommand.print 'a')) 0 0 0 1) ≠
        some exTreeC2'.root :=
  ⟨by decide, by decide,
    render_unchanged_skips_root_composite 3 exTreeC2' (by decide) (by decide) _
      (by decide)⟩

end Reovim
